import Mathlib

/-!
# CPU information utility: capability decoder

A shallow embedding of the CPUID decoder of the two front ends
(`cpuz_display_on_cmd/Source.cpp`, the console report, and
`cpuz_display_on_windows/Source.cpp`, the window report), and the
properties of the decoder proved on it.

Conventions of the embedding
* a hardware register is a raw 32-bit word, a `Nat` below `2 ^ 32`;
* the C++ type `int` is `Int`, the value stored in `int cpuInfo[4]` for a
  raw word is its two's complement reading (`toInt32`);
* `>>` on `int` is the arithmetic shift `Int.shiftRight`, `&` is `Int.land`,
  `<<` is the left shift of `Int`;
* the C++ type `unsigned` is `Nat` with an explicit `% 2 ^ 32`;
* a leaf or sub-leaf number is the raw 32-bit word the instruction receives
  (`0x80000000` passed through the `int` parameter keeps its bit pattern);
* a `char` buffer is a `List Nat` of byte values, a C string read from a
  buffer is the bytes before the first NUL (`cstr`).
-/

namespace CpuInfo

/-! ## Machine integers -/

/-- Registers EAX, EBX, ECX, EDX returned by one CPUID query, as raw words. -/
structure Regs where
  r0 : Nat
  r1 : Nat
  r2 : Nat
  r3 : Nat
deriving DecidableEq, Repr

/-- The identification capability: `(leaf, sub-leaf)` to four raw words. -/
abbrev Capability := Nat → Nat → Regs

/-- Every register of the tuple is a 32-bit word. -/
def Regs.WF (r : Regs) : Prop :=
  r.r0 < 4294967296 ∧ r.r1 < 4294967296 ∧ r.r2 < 4294967296 ∧ r.r3 < 4294967296

/-- The capability returns 32-bit words for every query. -/
def Capability.WF (q : Capability) : Prop := ∀ leaf sub, (q leaf sub).WF

/-- The value of an `int` holding the raw 32-bit word `w` (two's complement). -/
def toInt32 (w : Nat) : Int :=
  if w % 4294967296 < 2147483648 then ((w % 4294967296 : Nat) : Int)
  else ((w % 4294967296 : Nat) : Int) - 4294967296

/-- The conversion `static_cast<unsigned>(x)` of an `int`. -/
def toUInt32 (x : Int) : Nat := (x % 4294967296).toNat

/-- The array `int cpuInfo[4]` as filled by one query. -/
structure CpuInfoArr where
  a0 : Int
  a1 : Int
  a2 : Int
  a3 : Int
deriving DecidableEq, Repr

/-- The wrapper `cpuidex(cpuInfo, function_id, subfunction_id)`. -/
def cpuidex (q : Capability) (function_id subfunction_id : Nat) : CpuInfoArr :=
  let r := q function_id subfunction_id
  ⟨toInt32 r.r0, toInt32 r.r1, toInt32 r.r2, toInt32 r.r3⟩

/-- The wrapper `cpuid(cpuInfo, function_id)`: the intrinsic queries sub-leaf 0. -/
def cpuid (q : Capability) (function_id : Nat) : CpuInfoArr :=
  cpuidex q function_id 0

/-! ## Bytes, C strings and text -/

/-- Text written to the output: a sequence of byte values. -/
abbrev Bytes := List Nat

/-- The bytes of a string literal of the source (ASCII). -/
def lit (s : String) : Bytes := s.toList.map Char.toNat

/-- The four bytes `memcpy` reads from an `int`, lowest address first. -/
def int32Bytes (x : Int) : Bytes :=
  let u := toUInt32 x
  [u % 256, u / 256 % 256, u / 65536 % 256, u / 16777216 % 256]

/-- The C string held in a `char` buffer: the bytes before the first NUL. -/
def cstr (buf : Bytes) : Bytes := buf.takeWhile (fun b => b != 0)

/-- The pointer walk `while (*p == ' ') ++p;` over a buffer: the rest of the
buffer from the first byte that is not a space. -/
def skipSpaces (buf : Bytes) : Bytes := buf.dropWhile (fun b => b == 32)

/-- The search `strstr(haystack, needle)`: the offset of the first occurrence of
`needle` in `haystack`, `none` for the null pointer. -/
def strstr : Bytes → Bytes → Option Nat
  | [], needle => if needle.isPrefixOf [] then some 0 else none
  | h :: t, needle =>
    if needle.isPrefixOf (h :: t) then some 0
    else (strstr t needle).map (fun i => i + 1)

/-- The search `std::string::find(needle)`: the position of the first occurrence,
`none` for `std::string::npos`. -/
def stringFind (hay needle : Bytes) : Option Nat := strstr hay needle

/-- Conversion `%d` (and `operator<<` on `int`): the decimal digits of an `int`. -/
def fmtInt (x : Int) : Bytes := lit (toString x)

/-- Conversion `%u` (and `operator<<` on `unsigned`). -/
def fmtUInt (x : Nat) : Bytes := lit (toString x)

/-- Conversion `%-8s`: the string, padded with spaces on the right to width 8. -/
def padRight8 (s : Bytes) : Bytes := s ++ List.replicate (8 - s.length) 32

/-! ## Data model -/

/-- The processor signature printed by both front ends (`int` locals). -/
structure Signature where
  family : Int
  model : Int
  stepping : Int
  type : Int
deriving DecidableEq, Repr

/-- A cache descriptor as printed: the `unsigned` locals passed to the output. -/
structure CacheDescriptor where
  level : Nat
  typeName : String
  sizeKB : Nat
  ways : Nat
  lineSize : Nat
deriving DecidableEq, Repr

/-- Conversion `%x`: the lower-case hexadecimal digits of an `unsigned`. -/
def fmtHex (x : Nat) : Bytes := lit (String.mk (Nat.toDigits 16 x))

/-! ## Console front end (`cpuz_display_on_cmd/Source.cpp`) -/

namespace Console

/-- The buffer `char vendor[13]` after the `memset` and the three `memcpy`
(EBX, EDX, ECX of leaf 0). -/
def vendorBuf (q : Capability) : Bytes :=
  let cpuInfo := cpuid q 0
  int32Bytes cpuInfo.a1 ++ int32Bytes cpuInfo.a3 ++ int32Bytes cpuInfo.a2 ++ [0]

/-- The vendor string: `vendor` read as a C string. -/
def vendor (q : Capability) : Bytes := cstr (vendorBuf q)

/-- The family/model/stepping/type locals of `ShowBasicCPUInfo`, from
`cpuInfo[0]` of leaf 1. -/
def decodeSignature (eax : Int) : Signature :=
  let stepping := Int.land (Int.shiftRight eax 0) 0x0F
  let model := Int.land (Int.shiftRight eax 4) 0x0F
  let family := Int.land (Int.shiftRight eax 8) 0x0F
  let type := Int.land (Int.shiftRight eax 12) 0x03
  let extModel := Int.land (Int.shiftRight eax 16) 0x0F
  let extFamily := Int.land (Int.shiftRight eax 20) 0xFF
  let family := if family = 0xF then family + extFamily else family
  let model := if family = 0x6 ∨ family = 0xF then model + (extModel <<< (4 : Int)) else model
  ⟨family, model, stepping, type⟩

/-- The signature decoded by `ShowBasicCPUInfo`. -/
def signature (q : Capability) : Signature := decodeSignature (cpuid q 1).a0

/-- The local `maxExt` of `ShowBasicCPUInfo`. -/
def maxExt (q : Capability) : Nat := toUInt32 (cpuid q 0x80000000).a0

/-- The buffer `char brandString[49]` after the `memset` and the `memcpy` of
`brandData[12]` (leaves 0x80000002, 0x80000003, 0x80000004). -/
def brandBuf (q : Capability) : Bytes :=
  let d0 := cpuid q 0x80000002
  let d1 := cpuid q 0x80000003
  let d2 := cpuid q 0x80000004
  int32Bytes d0.a0 ++ int32Bytes d0.a1 ++ int32Bytes d0.a2 ++ int32Bytes d0.a3
    ++ int32Bytes d1.a0 ++ int32Bytes d1.a1 ++ int32Bytes d1.a2 ++ int32Bytes d1.a3
    ++ int32Bytes d2.a0 ++ int32Bytes d2.a1 ++ int32Bytes d2.a2 ++ int32Bytes d2.a3
    ++ [0]

/-- The brand string printed through `p`: the buffer from the first non-space
byte, read as a C string. -/
def brandText (q : Capability) : Bytes := cstr (skipSpaces (brandBuf q))

/-- The brand reported by `ShowBasicCPUInfo`: `some p` when the branch
`maxExt >= 0x80000004` runs and prints the C string at `p`, `none` when the
`else` branch runs and the brand is reported as not available. -/
def brand (q : Capability) : Option Bytes :=
  if maxExt q ≥ 0x80000004 then some (brandText q) else none

/-- The brand line printed by `ShowBasicCPUInfo`. -/
def brandLine (q : Capability) : Bytes :=
  if maxExt q ≥ 0x80000004 then lit "CPU Brand: " ++ brandText q ++ lit "\n"
  else lit "CPU Brand: <Not available>\n"

/-- The output of `ShowBasicCPUInfo`. -/
def ShowBasicCPUInfo (q : Capability) : Bytes :=
  let s := signature q
  lit "CPU Vendor: " ++ vendor q ++ lit "\n"
    ++ (lit "Family: " ++ fmtInt s.family ++ lit ", Model: " ++ fmtInt s.model
        ++ lit ", Stepping: " ++ fmtInt s.stepping ++ lit ", Type: " ++ fmtInt s.type ++ lit "\n")
    ++ brandLine q

/-- The output of `PrintFeatureFlag(name, isSet)`. -/
def PrintFeatureFlag (name : String) (isSet : Bool) : Bytes :=
  lit "  " ++ padRight8 (lit name) ++ lit ": " ++ (if isSet then lit "Yes" else lit "No")
    ++ lit "\n"

/-- The test `(reg & (1 << bit)) != 0`. -/
def bitSet (reg : Int) (bit : Nat) : Bool :=
  decide (Int.land reg ((1 : Int) <<< (bit : Int)) ≠ 0)

/-- The arguments of the ten `PrintFeatureFlag` calls of the standard block. -/
def stdFlags (q : Capability) : List (String × Bool) :=
  let cpuInfo := cpuid q 1
  let stdECX := cpuInfo.a2
  let stdEDX := cpuInfo.a3
  [("SSE", bitSet stdEDX 25), ("SSE2", bitSet stdEDX 26), ("SSE3", bitSet stdECX 0),
   ("SSSE3", bitSet stdECX 9), ("SSE4.1", bitSet stdECX 19), ("SSE4.2", bitSet stdECX 20),
   ("AVX", bitSet stdECX 28), ("FMA3", bitSet stdECX 12), ("PCLMUL", bitSet stdECX 1),
   ("AES", bitSet stdECX 25)]

/-- The arguments of the four `PrintFeatureFlag` calls of the extended block. -/
def extFlags (q : Capability) : List (String × Bool) :=
  let cpuInfo := cpuid q 0x80000001
  let extECX := cpuInfo.a2
  let extEDX := cpuInfo.a3
  [("x86-64 (LM)", bitSet extEDX 29), ("RDTSCP", bitSet extECX 27),
   ("SSE4a(AMD)", bitSet extECX 6), ("MMXExt(AMD)", bitSet extEDX 22)]

/-- The flags emitted by `ShowFeatureFlags`, in output order. -/
def featureFlags (q : Capability) : List (String × Bool) := stdFlags q ++ extFlags q

/-- The lines printed for a block of flags. -/
def flagLines (fs : List (String × Bool)) : Bytes :=
  (fs.map (fun f => PrintFeatureFlag f.1 f.2)).flatten

/-- The output of `ShowFeatureFlags`. -/
def ShowFeatureFlags (q : Capability) : Bytes :=
  lit "\nStandard Feature Flags (CPUID.1):\n" ++ flagLines (stdFlags q)
    ++ lit "\nExtended Feature Flags (CPUID.0x80000001):\n" ++ flagLines (extFlags q)

/-- The local `physicalCores` of `ShowCoreAndThreadCount` at the two `printf`;
`logicalCount` is `sysInfo.dwNumberOfProcessors`. -/
def physicalCores (q : Capability) (logicalCount : Nat) : Int :=
  let cpuInfo := cpuid q 0
  let maxBasic := cpuInfo.a0
  let cpuInfo := cpuid q 0x80000000
  let maxExt := toUInt32 cpuInfo.a0
  let vendor := vendor q
  let physicalCores := toInt32 logicalCount
  if (strstr vendor (lit "Intel")).isSome ∧ maxBasic ≥ 4 then
    let cpuInfo := cpuidex q 4 0
    let coresPerPkg := Int.land (Int.shiftRight cpuInfo.a0 26) 0x3F + 1
    coresPerPkg
  else if (strstr vendor (lit "AuthenticAMD")).isSome ∧ maxExt ≥ 0x80000008 then
    let cpuInfo := cpuid q 0x80000008
    let coresPerPkg := Int.land cpuInfo.a2 0xFF + 1
    coresPerPkg
  else physicalCores

/-- The output of `ShowCoreAndThreadCount`. -/
def ShowCoreAndThreadCount (q : Capability) (logicalCount : Nat) : Bytes :=
  lit "\nLogical Processors: " ++ fmtUInt (logicalCount % 4294967296) ++ lit "\n"
    ++ lit "Approx. Physical Cores: " ++ fmtInt (physicalCores q logicalCount) ++ lit "\n"

/-- The local `leafCache` of `ShowCacheInfo`. -/
def leafCache (q : Capability) : Nat :=
  let cpuInfo := cpuid q 0
  let maxBasic := cpuInfo.a0
  let cpuInfo := cpuid q 0x80000000
  let maxExt := toUInt32 cpuInfo.a0
  if maxBasic ≥ 4 then 4
  else if maxExt ≥ 0x8000001D then 0x8000001D
  else 0

/-- The local `cacheType` of the loop body: `cpuInfo[0] & 0x1F` as `unsigned`. -/
def cacheType (cpuInfo : CpuInfoArr) : Nat := toUInt32 (Int.land cpuInfo.a0 0x1F)

/-- The loop body of `ShowCacheInfo` after the `break` test: the locals passed to
the `printf`. The products are `unsigned`, reduced modulo `2 ^ 32` at each step;
the `int` sum `cpuInfo[2] + 1` is converted to `unsigned` (it wraps at `INT_MAX`). -/
def cacheEntry (cpuInfo : CpuInfoArr) : CacheDescriptor :=
  let cacheType := cacheType cpuInfo
  let cacheLevel := toUInt32 (Int.land (Int.shiftRight cpuInfo.a0 5) 0x7)
  let ways := toUInt32 (Int.land (Int.shiftRight cpuInfo.a1 22) 0x3FF + 1)
  let partitions := toUInt32 (Int.land (Int.shiftRight cpuInfo.a1 12) 0x3FF + 1)
  let lineSize := toUInt32 (Int.land cpuInfo.a1 0xFFF + 1)
  let sets := toUInt32 (cpuInfo.a2 + 1)
  let totalSize :=
    (((ways * partitions % 4294967296) * lineSize % 4294967296) * sets % 4294967296) / 1024
  let typeName :=
    if cacheType = 1 then "Data"
    else if cacheType = 2 then "Instruction"
    else if cacheType = 3 then "Unified"
    else "Unknown"
  ⟨cacheLevel, typeName, totalSize, ways, lineSize⟩

/-- The `for` loop of `ShowCacheInfo`, entered with the counter at `subLeaf`: the
sub-leaves queried and the descriptors printed, in order. -/
def cacheLoop (q : Capability) (leafCache : Nat) (subLeaf : Nat) :
    List Nat × List CacheDescriptor :=
  if _h : subLeaf < 32 then
    let cpuInfo := cpuidex q leafCache subLeaf
    if cacheType cpuInfo = 0 then ([subLeaf], [])
    else
      let rest := cacheLoop q leafCache (subLeaf + 1)
      (subLeaf :: rest.1, cacheEntry cpuInfo :: rest.2)
  else ([], [])
termination_by 32 - subLeaf

/-- The sub-leaves of the cache leaf queried by `ShowCacheInfo`. -/
def cacheQueries (q : Capability) : List Nat :=
  if leafCache q = 0 then [] else (cacheLoop q (leafCache q) 0).1

/-- The cache descriptors printed by `ShowCacheInfo`. -/
def cacheDescriptors (q : Capability) : List CacheDescriptor :=
  if leafCache q = 0 then [] else (cacheLoop q (leafCache q) 0).2

/-- The line printed for one cache descriptor. -/
def cacheLine (d : CacheDescriptor) : Bytes :=
  lit "  L" ++ fmtUInt d.level ++ lit " " ++ lit d.typeName ++ lit " Cache: "
    ++ fmtUInt d.sizeKB ++ lit " KB, " ++ fmtUInt d.ways ++ lit "-way, line size "
    ++ fmtUInt d.lineSize ++ lit " bytes\n"

/-- The output of `ShowCacheInfo`. -/
def ShowCacheInfo (q : Capability) : Bytes :=
  if leafCache q = 0 then lit "\nCache Information:\n  No advanced cache enumeration.\n"
  else lit "\nCache Information (CPUID leaf 0x" ++ fmtHex (leafCache q) ++ lit "):\n"
    ++ ((cacheLoop q (leafCache q) 0).2.map cacheLine).flatten

/-- The output of `main`; `freq2f` is the text of the `%.2f` conversion of the
measured frequency. -/
def main (q : Capability) (logicalCount : Nat) (freq2f : Bytes) : Bytes :=
  lit "===== CPU Information Utility =====\n\n"
    ++ ShowBasicCPUInfo q
    ++ ShowFeatureFlags q
    ++ ShowCoreAndThreadCount q logicalCount
    ++ ShowCacheInfo q
    ++ (lit "\nApprox. CPU Frequency: " ++ freq2f ++ lit " MHz\n")
    ++ lit "\n===================================\n"

end Console

/-! ## Window front end (`cpuz_display_on_windows/Source.cpp`)

The sections of `GetCPUInformation`, in source order; a local computed in one
section and read in a later one (`maxExt`, `maxBasic`) is one definition. -/

namespace Window

/-- The buffer `char vendorBuf[13]` of section 1. -/
def vendorBuf (q : Capability) : Bytes :=
  let cpuInfo := cpuid q 0
  int32Bytes cpuInfo.a1 ++ int32Bytes cpuInfo.a3 ++ int32Bytes cpuInfo.a2 ++ [0]

/-- The vendor string streamed by `oss << vendorBuf`. -/
def vendor (q : Capability) : Bytes := cstr (vendorBuf q)

/-- The family/model/stepping/type locals of section 2, from `cpuInfo[0]` of leaf 1. -/
def decodeSignature (eax : Int) : Signature :=
  let stepping := Int.land (Int.shiftRight eax 0) 0x0F
  let model := Int.land (Int.shiftRight eax 4) 0x0F
  let family := Int.land (Int.shiftRight eax 8) 0x0F
  let type := Int.land (Int.shiftRight eax 12) 0x03
  let extModel := Int.land (Int.shiftRight eax 16) 0x0F
  let extFamily := Int.land (Int.shiftRight eax 20) 0xFF
  let family := if family = 0xF then family + extFamily else family
  let model := if family = 0x6 ∨ family = 0xF then model + (extModel <<< (4 : Int)) else model
  ⟨family, model, stepping, type⟩

/-- The signature decoded by section 2. -/
def signature (q : Capability) : Signature := decodeSignature (cpuid q 1).a0

/-- The local `maxExt` of section 3, read again in sections 5 and 6. -/
def maxExt (q : Capability) : Nat := toUInt32 (cpuid q 0x80000000).a0

/-- The buffer `char brandBuf[49]` of section 3. -/
def brandBuf (q : Capability) : Bytes :=
  let d0 := cpuid q 0x80000002
  let d1 := cpuid q 0x80000003
  let d2 := cpuid q 0x80000004
  int32Bytes d0.a0 ++ int32Bytes d0.a1 ++ int32Bytes d0.a2 ++ int32Bytes d0.a3
    ++ int32Bytes d1.a0 ++ int32Bytes d1.a1 ++ int32Bytes d1.a2 ++ int32Bytes d1.a3
    ++ int32Bytes d2.a0 ++ int32Bytes d2.a1 ++ int32Bytes d2.a2 ++ int32Bytes d2.a3
    ++ [0]

/-- The brand string streamed through `p`. -/
def brandText (q : Capability) : Bytes := cstr (skipSpaces (brandBuf q))

/-- The brand reported by section 3: `some p` when the branch
`maxExt >= 0x80000004` runs and streams the C string at `p`, `none` when the
`else` branch runs and the brand is reported as not available. -/
def brand (q : Capability) : Option Bytes :=
  if maxExt q ≥ 0x80000004 then some (brandText q) else none

/-- The brand line of section 3. -/
def brandLine (q : Capability) : Bytes :=
  if maxExt q ≥ 0x80000004 then lit "CPU Brand: " ++ brandText q ++ lit "\r\n"
  else lit "CPU Brand: <Not available>\r\n"

/-- The text of sections 1 to 3. -/
def basicText (q : Capability) : Bytes :=
  let s := signature q
  lit "CPU Vendor: " ++ vendor q ++ lit "\r\n"
    ++ (lit "Family: " ++ fmtInt s.family ++ lit ", Model: " ++ fmtInt s.model
        ++ lit ", Stepping: " ++ fmtInt s.stepping ++ lit ", Type: " ++ fmtInt s.type
        ++ lit "\r\n")
    ++ brandLine q

/-- The lambda `PrintFeat(featName, isSet)` of section 4. -/
def PrintFeat (featName : String) (isSet : Bool) : Bytes :=
  lit "    " ++ lit featName ++ lit ": " ++ (if isSet then lit "Yes" else lit "No")
    ++ lit "\r\n"

/-- The test `(reg & (1 << bit)) != 0`. -/
def bitSet (reg : Int) (bit : Nat) : Bool :=
  decide (Int.land reg ((1 : Int) <<< (bit : Int)) ≠ 0)

/-- The arguments of the ten `PrintFeat` calls of the standard block. -/
def stdFlags (q : Capability) : List (String × Bool) :=
  let cpuInfo := cpuid q 1
  let stdECX := cpuInfo.a2
  let stdEDX := cpuInfo.a3
  [("SSE", bitSet stdEDX 25), ("SSE2", bitSet stdEDX 26), ("SSE3", bitSet stdECX 0),
   ("SSSE3", bitSet stdECX 9), ("SSE4.1", bitSet stdECX 19), ("SSE4.2", bitSet stdECX 20),
   ("AVX", bitSet stdECX 28), ("FMA3", bitSet stdECX 12), ("PCLMUL", bitSet stdECX 1),
   ("AES", bitSet stdECX 25)]

/-- The arguments of the four `PrintFeat` calls of the extended block. -/
def extFlags (q : Capability) : List (String × Bool) :=
  let cpuInfo := cpuid q 0x80000001
  let extECX := cpuInfo.a2
  let extEDX := cpuInfo.a3
  [("x86-64 (LM)", bitSet extEDX 29), ("RDTSCP", bitSet extECX 27),
   ("SSE4a(AMD)", bitSet extECX 6), ("MMXExt(AMD)", bitSet extEDX 22)]

/-- The flags emitted by section 4, in output order. -/
def featureFlags (q : Capability) : List (String × Bool) := stdFlags q ++ extFlags q

/-- The lines streamed for a block of flags. -/
def flagLines (fs : List (String × Bool)) : Bytes :=
  (fs.map (fun f => PrintFeat f.1 f.2)).flatten

/-- The text of section 4. -/
def featureText (q : Capability) : Bytes :=
  lit "\r\nStandard Features (CPUID.1):\r\n" ++ flagLines (stdFlags q)
    ++ lit "\r\nExtended Features (CPUID.0x80000001):\r\n" ++ flagLines (extFlags q)

/-- The local `maxBasic` of section 5, read again in section 6. -/
def maxBasic (q : Capability) : Int := (cpuid q 0).a0

/-- The string `vendorStr` of section 5. -/
def vendorStr (q : Capability) : Bytes :=
  let cpuInfo := cpuid q 0
  cstr (int32Bytes cpuInfo.a1 ++ int32Bytes cpuInfo.a3 ++ int32Bytes cpuInfo.a2 ++ [0])

/-- The local `physicalCores` of section 5 when it is streamed. -/
def physicalCores (q : Capability) (logicalCount : Nat) : Int :=
  let physicalCores := toInt32 logicalCount
  let vendorStr := vendorStr q
  let maxBasic := maxBasic q
  if (stringFind vendorStr (lit "Intel")).isSome ∧ maxBasic ≥ 4 then
    let cpuInfo := cpuidex q 4 0
    let coresPerPkg := Int.land (Int.shiftRight cpuInfo.a0 26) 0x3F + 1
    coresPerPkg
  else if (stringFind vendorStr (lit "AuthenticAMD")).isSome ∧ maxExt q ≥ 0x80000008 then
    let cpuInfo := cpuid q 0x80000008
    let coresPerPkg := Int.land cpuInfo.a2 0xFF + 1
    coresPerPkg
  else physicalCores

/-- The text of section 5. -/
def coreText (q : Capability) (logicalCount : Nat) : Bytes :=
  lit "\r\nLogical Processors: " ++ fmtUInt (logicalCount % 4294967296) ++ lit "\r\n"
    ++ lit "Approx. Physical Cores: " ++ fmtInt (physicalCores q logicalCount) ++ lit "\r\n"

/-- The local `leafCache` of section 6. -/
def leafCache (q : Capability) : Nat :=
  if maxBasic q ≥ 4 then 4
  else if maxExt q ≥ 0x8000001D then 0x8000001D
  else 0

/-- The local `cacheType` of the loop body: `cpuInfo[0] & 0x1F` as `unsigned`. -/
def cacheType (cpuInfo : CpuInfoArr) : Nat := toUInt32 (Int.land cpuInfo.a0 0x1F)

/-- The loop body of section 6 after the `break` test: the locals streamed. -/
def cacheEntry (cpuInfo : CpuInfoArr) : CacheDescriptor :=
  let cacheType := cacheType cpuInfo
  let cacheLevel := toUInt32 (Int.land (Int.shiftRight cpuInfo.a0 5) 0x7)
  let ways := toUInt32 (Int.land (Int.shiftRight cpuInfo.a1 22) 0x3FF + 1)
  let partitions := toUInt32 (Int.land (Int.shiftRight cpuInfo.a1 12) 0x3FF + 1)
  let lineSize := toUInt32 (Int.land cpuInfo.a1 0xFFF + 1)
  let sets := toUInt32 (cpuInfo.a2 + 1)
  let totalSize :=
    (((ways * partitions % 4294967296) * lineSize % 4294967296) * sets % 4294967296) / 1024
  let typeName :=
    if cacheType = 1 then "Data"
    else if cacheType = 2 then "Instruction"
    else if cacheType = 3 then "Unified"
    else "Unknown"
  ⟨cacheLevel, typeName, totalSize, ways, lineSize⟩

/-- The `for` loop of section 6, entered with the counter at `subLeaf`: the
sub-leaves queried and the descriptors streamed, in order. -/
def cacheLoop (q : Capability) (leafCache : Nat) (subLeaf : Nat) :
    List Nat × List CacheDescriptor :=
  if _h : subLeaf < 32 then
    let cpuInfo := cpuidex q leafCache subLeaf
    if cacheType cpuInfo = 0 then ([subLeaf], [])
    else
      let rest := cacheLoop q leafCache (subLeaf + 1)
      (subLeaf :: rest.1, cacheEntry cpuInfo :: rest.2)
  else ([], [])
termination_by 32 - subLeaf

/-- The sub-leaves of the cache leaf queried by section 6. -/
def cacheQueries (q : Capability) : List Nat :=
  if leafCache q = 0 then [] else (cacheLoop q (leafCache q) 0).1

/-- The cache descriptors streamed by section 6. -/
def cacheDescriptors (q : Capability) : List CacheDescriptor :=
  if leafCache q = 0 then [] else (cacheLoop q (leafCache q) 0).2

/-- The line streamed for one cache descriptor. -/
def cacheLine (d : CacheDescriptor) : Bytes :=
  lit "    L" ++ fmtUInt d.level ++ lit " " ++ lit d.typeName ++ lit " Cache: "
    ++ fmtUInt d.sizeKB ++ lit " KB, " ++ fmtUInt d.ways ++ lit "-way, line size "
    ++ fmtUInt d.lineSize ++ lit " bytes\r\n"

/-- The text of section 6. -/
def cacheText (q : Capability) : Bytes :=
  lit "\r\nCache Information:\r\n"
    ++ (if leafCache q = 0 then lit "    No advanced cache enumeration.\r\n"
        else ((cacheLoop q (leafCache q) 0).2.map cacheLine).flatten)

/-- The string returned by `GetCPUInformation`; `freqText` is the text of
`operator<<` on the measured frequency (a `double`). -/
def GetCPUInformation (q : Capability) (logicalCount : Nat) (freqText : Bytes) : Bytes :=
  basicText q
    ++ featureText q
    ++ coreText q logicalCount
    ++ cacheText q
    ++ (lit "\r\nApprox. CPU Frequency: " ++ freqText ++ lit " MHz\r\n")

end Window

/-! ## Reference definitions, in the words of the specification -/

/-- The bit field `bits[lo:hi)` of a raw word. -/
def bits (r lo hi : Nat) : Nat := r / 2 ^ lo % 2 ^ (hi - lo)

/-- The little-endian bytes of a raw 32-bit word. -/
def leBytes (w : Nat) : Bytes := [bits w 0 8, bits w 8 16, bits w 16 24, bits w 24 32]

/-- The signature of the specification: the fields of leaf-1 register 0, the
extended family added when the base family is `0xF`, the extended model folded
in when the resulting family is `0x6` or `0xF`. -/
def referenceSignature (r : Nat) : Signature :=
  let stepping := bits r 0 4
  let type := bits r 12 14
  let baseModel := bits r 4 8
  let baseFamily := bits r 8 12
  let extModel := bits r 16 20
  let extFamily := bits r 20 28
  let family := if baseFamily = 0xF then baseFamily + extFamily else baseFamily
  let model := if family = 0x6 ∨ family = 0xF then baseModel + extModel * 2 ^ 4 else baseModel
  ⟨(family : Nat), (model : Nat), (stepping : Nat), (type : Nat)⟩

/-- The 12 vendor bytes of a leaf-0 tuple: the bytes of register 1, then 3, then 2. -/
def vendorBytes (r : Regs) : Bytes := leBytes r.r1 ++ leBytes r.r3 ++ leBytes r.r2

/-- The 48 brand bytes: leaves 0x80000002 to 0x80000004 in order, within each
leaf registers 0 to 3 in order, each register little endian. -/
def brandBytes (q : Capability) : Bytes :=
  ([0x80000002, 0x80000003, 0x80000004].map (fun leaf =>
    let r := q leaf 0
    leBytes r.r0 ++ leBytes r.r1 ++ leBytes r.r2 ++ leBytes r.r3)).flatten

/-- The value of `maxExtendedLeaf`: register 0 of leaf 0x80000000. -/
def maxExtendedLeaf (q : Capability) : Nat := (q 0x80000000 0).r0

/-- The value of `maxBasicLeaf`: register 0 of leaf 0. -/
def maxBasicLeaf (q : Capability) : Nat := (q 0 0).r0

/-- The feature table of the specification: for each flag, the tested bit, as a
function of the leaf-1 registers (ECX, EDX) and the leaf-0x80000001 registers. -/
def flagTable (stdECX stdEDX extECX extEDX : Nat) : List Bool :=
  [stdEDX.testBit 25, stdEDX.testBit 26, stdECX.testBit 0, stdECX.testBit 9,
   stdECX.testBit 19, stdECX.testBit 20, stdECX.testBit 28, stdECX.testBit 12,
   stdECX.testBit 1, stdECX.testBit 25, extEDX.testBit 29, extECX.testBit 27,
   extECX.testBit 6, extEDX.testBit 22]

/-- The flag names of the specification table, in table order. -/
def specFlagNames : List String :=
  ["SSE", "SSE2", "SSE3", "SSSE3", "SSE4.1", "SSE4.2", "AVX", "FMA3", "PCLMUL", "AES",
   "x86-64 (LM)", "RDTSCP", "SSE4a (AMD)", "MMXExt (AMD)"]

/-- The flag names passed by the code, in output order. -/
def codeFlagNames : List String :=
  ["SSE", "SSE2", "SSE3", "SSSE3", "SSE4.1", "SSE4.2", "AVX", "FMA3", "PCLMUL", "AES",
   "x86-64 (LM)", "RDTSCP", "SSE4a(AMD)", "MMXExt(AMD)"]

/-- The type code of a cache sub-leaf: `bits[0:5)` of register 0. -/
def typeCode (q : Capability) (leaf sub : Nat) : Nat := bits (q leaf sub).r0 0 5

/-- The number `k` of the specification: the least sub-leaf index below 32 whose
type code is 0, or 32 when no sub-leaf below 32 has type code 0. -/
def firstZeroType (q : Capability) (leaf : Nat) : Nat :=
  ((List.range 32).find? (fun i => typeCode q leaf i == 0)).getD 32

/-- The exact (unbounded) product `ways * partitions * lineSize * sets` of a cache
sub-leaf with registers 1 and 2. -/
def exactProduct (r1 r2 : Nat) : Nat :=
  (bits r1 22 32 + 1) * (bits r1 12 22 + 1) * (bits r1 0 12 + 1) * (r2 + 1)

/-- The size of a cache sub-leaf in 32-bit unsigned arithmetic:
`((ways * partitions * lineSize * ((register2 + 1) mod 2^32)) mod 2^32) div 1024`. -/
def sizeKB32 (r1 r2 : Nat) : Nat :=
  ((bits r1 22 32 + 1) * (bits r1 12 22 + 1) * (bits r1 0 12 + 1) * ((r2 + 1) % 4294967296)
    % 4294967296) / 1024

/-- The type name of the specification for a type code. -/
def specTypeName (t : Nat) : String :=
  if t = 1 then "Data" else if t = 2 then "Instruction" else if t = 3 then "Unified"
  else "Unknown"

/-- Replacement of every LF of a text by CR LF. -/
def crlf : Bytes → Bytes
  | [] => []
  | b :: t => if b = 10 then 13 :: 10 :: crlf t else b :: crlf t

/-- The topology decode of the front ends with the two vendor tests in the
opposite order: the `AuthenticAMD` test first, then the `Intel` test. -/
def physicalCoresAmdFirst (q : Capability) (logicalCount : Nat) : Int :=
  let maxBasic := (cpuid q 0).a0
  let maxExt := toUInt32 (cpuid q 0x80000000).a0
  let vendor := Console.vendor q
  if (strstr vendor (lit "AuthenticAMD")).isSome ∧ maxExt ≥ 0x80000008 then
    Int.land (cpuid q 0x80000008).a2 0xFF + 1
  else if (strstr vendor (lit "Intel")).isSome ∧ maxBasic ≥ 4 then
    Int.land (Int.shiftRight (cpuidex q 4 0).a0 26) 0x3F + 1
  else toInt32 logicalCount

/-- The lines of the vendor, signature and brand section, without line endings. -/
def basicLines (q : Capability) : List Bytes :=
  let s := Console.signature q
  [lit "CPU Vendor: " ++ Console.vendor q,
   lit "Family: " ++ fmtInt s.family ++ lit ", Model: " ++ fmtInt s.model
     ++ lit ", Stepping: " ++ fmtInt s.stepping ++ lit ", Type: " ++ fmtInt s.type,
   if Console.maxExt q ≥ 0x80000004 then lit "CPU Brand: " ++ Console.brandText q
   else lit "CPU Brand: <Not available>"]

/-- The lines of the core count section (an empty line first), without line
endings. -/
def coreLines (q : Capability) (logicalCount : Nat) : List Bytes :=
  [[], lit "Logical Processors: " ++ fmtUInt (logicalCount % 4294967296),
   lit "Approx. Physical Cores: " ++ fmtInt (Console.physicalCores q logicalCount)]

/-- The text of a list of lines, each followed by the line ending `eol`. -/
def joinLines (eol : Bytes) (ls : List Bytes) : Bytes := (ls.map (fun l => l ++ eol)).flatten

/-- The lines of a text: the runs of bytes between consecutive LF bytes. -/
def splitLines : Bytes → List Bytes
  | [] => [[]]
  | b :: t =>
    if b = 10 then [] :: splitLines t
    else
      match splitLines t with
      | [] => [[b]]
      | l :: ls => (b :: l) :: ls

/-! ## Concrete capabilities -/

/-- A capability whose leaf-0 register 1 holds the bytes `'A', NUL, 'B', NUL` and
whose registers 3 and 2 hold `"ABCD"`. -/
def embeddedNulVendor : Capability := fun _ _ => ⟨0, 0x00420041, 0x44434241, 0x44434241⟩

/-- A mock of an Intel processor: vendor `GenuineIntel`, signature `0x000306A9`,
four cache sub-leaves under leaf 4, and the brand string
`"        Intel(R) Core(TM) i7-3770 CPU @ 3.40GHz"` followed by a NUL. -/
def intelMock : Capability := fun leaf sub =>
  if leaf = 0 then ⟨0xD, 0x756E6547, 0x6C65746E, 0x49656E69⟩
  else if leaf = 1 then ⟨0x000306A9, 0x00100800, 0x7FBAE3FF, 0xBFEBFBFF⟩
  else if leaf = 4 then
    (if sub = 0 then ⟨0x1C004121, 0x01C0003F, 0x3F, 0⟩
     else if sub = 1 then ⟨0x1C004122, 0x01C0003F, 0x3F, 0⟩
     else if sub = 2 then ⟨0x1C004143, 0x01C0003F, 0x1FF, 0⟩
     else if sub = 3 then ⟨0x1C03C163, 0x03C0003F, 0x1FFF, 6⟩
     else ⟨0, 0, 0, 0⟩)
  else if leaf = 0x80000000 then ⟨0x80000004, 0, 0, 0⟩
  else if leaf = 0x80000001 then ⟨0, 0, 1, 0x28100800⟩
  else if leaf = 0x80000002 then ⟨0x20202020, 0x20202020, 0x65746E49, 0x2952286C⟩
  else if leaf = 0x80000003 then ⟨0x726F4320, 0x4D542865, 0x37692029, 0x3737332D⟩
  else if leaf = 0x80000004 then ⟨0x50432030, 0x20402055, 0x30342E33, 0x007A4847⟩
  else ⟨0, 0, 0, 0⟩

/-- A mock whose brand leaves spell `"<Not available>"` followed by NUL bytes,
with `maxExtendedLeaf = 0x80000004`. -/
def notAvailableBrand : Capability := fun leaf _ =>
  if leaf = 0x80000000 then ⟨0x80000004, 0, 0, 0⟩
  else if leaf = 0x80000002 then ⟨0x746F4E3C, 0x61766120, 0x62616C69, 0x003E656C⟩
  else ⟨0, 0, 0, 0⟩

/-- A mock of an AMD processor: vendor `AuthenticAMD`, `maxBasicLeaf = 0x10`, the
given `maxExtendedLeaf`, and `0x0B` in `bits[0:8)` of register 2 of leaf 0x80000008. -/
def amdMock (maxExtended : Nat) : Capability := fun leaf _ =>
  if leaf = 0 then ⟨0x10, 0x68747541, 0x444D4163, 0x69746E65⟩
  else if leaf = 1 then ⟨0x00870F10, 0x000C0800, 0x7ED8320B, 0x178BFBFF⟩
  else if leaf = 0x80000000 then ⟨maxExtended % 4294967296, 0, 0, 0⟩
  else if leaf = 0x80000008 then ⟨0x3030, 0, 0x400B, 0⟩
  else ⟨0, 0, 0, 0⟩

/-- A mock with vendor `GenuineIntel` whose leaf-0 register 0 is `0x80000000`
and whose leaf-4 sub-leaf-0 register 0 has `bits[26:32) = 7`. -/
def intelHighMaxBasic : Capability := fun leaf _ =>
  if leaf = 0 then ⟨0x80000000, 0x756E6547, 0x6C65746E, 0x49656E69⟩
  else if leaf = 4 then ⟨0x1C004121, 0x01C0003F, 0x3F, 0⟩
  else ⟨0, 0, 0, 0⟩

/-- A mock with vendor `CentaurHauls`, with non-zero leaves 4 and 0x80000008. -/
def centaurMock : Capability := fun leaf _ =>
  if leaf = 0 then ⟨0xA, 0x746E6543, 0x736C7561, 0x48727561⟩
  else if leaf = 4 then ⟨0x1C004121, 0x01C0003F, 0x3F, 0⟩
  else if leaf = 0x80000000 then ⟨0x80000008, 0, 0, 0⟩
  else if leaf = 0x80000008 then ⟨0x3030, 0, 0x400B, 0⟩
  else ⟨0, 0, 0, 0⟩

/-- A mock whose leaf 4 reports a data cache (type code 1) at every sub-leaf. -/
def endlessCacheMock : Capability := fun leaf _ =>
  if leaf = 0 then ⟨4, 0x756E6547, 0x6C65746E, 0x49656E69⟩
  else if leaf = 4 then ⟨0x121, 0x01C0003F, 0x3F, 0⟩
  else ⟨0, 0, 0, 0⟩

/-- A mock with `maxBasicLeaf = 1` and `maxExtendedLeaf = 0x8000001E`, whose leaf
0x8000001D reports one data cache at sub-leaf 0. -/
def extCacheMock : Capability := fun leaf sub =>
  if leaf = 0 then ⟨1, 0x68747541, 0x444D4163, 0x69746E65⟩
  else if leaf = 0x80000000 then ⟨0x8000001E, 0, 0, 0⟩
  else if leaf = 0x8000001D then (if sub = 0 then ⟨0x121, 0x01C0003F, 0x3F, 0⟩ else ⟨0, 0, 0, 0⟩)
  else ⟨0, 0, 0, 0⟩

/-- The registers of a cache sub-leaf describing a unified level-3 cache of 16
ways, 1 partition, 64-byte lines and `2 ^ 22` sets (4 GiB). -/
def hugeCacheRegs : Regs := ⟨0x163, 0x03C0003F, 0x003FFFFF, 0⟩

/-- The array `cpuInfo` holding a register tuple. -/
def cpuInfoOf (r : Regs) : CpuInfoArr := ⟨toInt32 r.r0, toInt32 r.r1, toInt32 r.r2, toInt32 r.r3⟩

end CpuInfo

namespace CpuInfo

theorem toInt32_of_lt {w : Nat} (h : w < 2147483648) : toInt32 w = (w : Int) := by
  unfold toInt32
  have : w % 4294967296 = w := Nat.mod_eq_of_lt (by omega)
  rw [this, if_pos h]

theorem toInt32_of_ge {w : Nat} (h : 2147483648 ≤ w) (h32 : w < 4294967296) :
    toInt32 w = Int.negSucc (4294967296 - (w + 1)) := by
  unfold toInt32
  have : w % 4294967296 = w := Nat.mod_eq_of_lt h32
  rw [this, if_neg (by omega), Int.negSucc_eq]
  omega

/-- The bit field `(x >> k) & m` of a signed register is the field of the raw word. -/
theorem field_eq (w k m : Nat) (hw : w < 4294967296) (hk : k ≤ 32)
    (hm : m < 2 ^ (32 - k)) :
    Int.land (Int.shiftRight (toInt32 w) k) (m : Int) = (((w >>> k) &&& m : Nat) : Int) := by
  by_cases h : w < 2147483648
  · rw [toInt32_of_lt h]
    rfl
  · rw [toInt32_of_ge (by omega) hw]
    show ((Nat.ldiff m ((4294967296 - (w + 1)) >>> k) : Nat) : Int) = _
    congr 1
    apply Nat.eq_of_testBit_eq
    intro i
    have h2 : w < 2 ^ 32 := by norm_num; exact hw
    have := Nat.testBit_two_pow_sub_succ h2 (k + i)
    norm_num at this
    rw [Nat.testBit_ldiff, Nat.testBit_shiftRight, Nat.testBit_and, Nat.testBit_shiftRight, this]
    by_cases hi : k + i < 32
    · simp [hi, Bool.and_comm]
    · have hmi : m.testBit i = false := by
        apply Nat.testBit_lt_two_pow
        calc m < 2 ^ (32 - k) := hm
          _ ≤ 2 ^ i := Nat.pow_le_pow_right (by norm_num) (by omega)
      simp [hmi]

/-- The field `(x >> k) & (2^j - 1)` is `bits[k : k+j)` of the raw word. -/
theorem field_bits (w k j : Nat) (hw : w < 4294967296) (hkj : k + j ≤ 32) :
    Int.land (Int.shiftRight (toInt32 w) k) ((2 ^ j - 1 : Nat) : Int)
      = ((bits w k (k + j) : Nat) : Int) := by
  have hm : 2 ^ j - 1 < 2 ^ (32 - k) := by
    have h1 : 2 ^ j ≤ 2 ^ (32 - k) := Nat.pow_le_pow_right (by norm_num) (by omega)
    have h2 : 0 < 2 ^ j := Nat.pos_pow_of_pos j (by norm_num)
    omega
  rw [field_eq w k (2 ^ j - 1) hw (by omega) hm, Nat.and_pow_two_sub_one_eq_mod,
    Nat.shiftRight_eq_div_pow]
  simp [bits]

theorem shiftRight_zero (x : Int) : Int.shiftRight x 0 = x := by
  cases x <;> rfl

/-- The mask `x & (2^j - 1)` without a shift. -/
theorem mask_bits (w j : Nat) (hw : w < 4294967296) (hj : j ≤ 32) :
    Int.land (toInt32 w) ((2 ^ j - 1 : Nat) : Int) = ((bits w 0 j : Nat) : Int) := by
  have := field_bits w 0 j hw (by omega)
  rw [shiftRight_zero] at this
  simpa using this

theorem sig_fields (w : Nat) (hw : w < 4294967296) :
    Int.land (Int.shiftRight (toInt32 w) 0) 0x0F = ((bits w 0 4 : Nat) : Int)
    ∧ Int.land (Int.shiftRight (toInt32 w) 4) 0x0F = ((bits w 4 8 : Nat) : Int)
    ∧ Int.land (Int.shiftRight (toInt32 w) 8) 0x0F = ((bits w 8 12 : Nat) : Int)
    ∧ Int.land (Int.shiftRight (toInt32 w) 12) 0x03 = ((bits w 12 14 : Nat) : Int)
    ∧ Int.land (Int.shiftRight (toInt32 w) 16) 0x0F = ((bits w 16 20 : Nat) : Int)
    ∧ Int.land (Int.shiftRight (toInt32 w) 20) 0xFF = ((bits w 20 28 : Nat) : Int) :=
  ⟨field_bits w 0 4 hw (by norm_num), field_bits w 4 4 hw (by norm_num),
   field_bits w 8 4 hw (by norm_num), field_bits w 12 2 hw (by norm_num),
   field_bits w 16 4 hw (by norm_num), field_bits w 20 8 hw (by norm_num)⟩

theorem shl4 (x : Int) : x <<< (4 : Int) = x * 16 := Int.shiftLeft_eq_mul_pow x 4

theorem console_sig_eq (r : Nat) (hr : r < 4294967296) :
    Console.decodeSignature (toInt32 r) = referenceSignature r := by
  obtain ⟨h0, h4, h8, h12, h16, h20⟩ := sig_fields r hr
  simp only [Console.decodeSignature, referenceSignature, h0, h4, h8, h12, h16, h20, shl4]
  by_cases hf : bits r 8 12 = 15
  · by_cases he : bits r 20 28 = 0
    · simp [hf, he]
    · have h1 : ¬ (15 + bits r 20 28 = 6) := by omega
      have h2 : ¬ (15 + bits r 20 28 = 15) := by omega
      have h3 : ¬ ((15 : Int) + (bits r 20 28 : Int) = 6) := by omega
      have h4 : ¬ ((15 : Int) + (bits r 20 28 : Int) = 15) := by omega
      simp [hf, h1, h2, h3, h4]
  · have hf2 : ¬ ((bits r 8 12 : Int) = 15) := by exact_mod_cast hf
    by_cases h6 : bits r 8 12 = 6
    · simp [h6]
    · have h62 : ¬ ((bits r 8 12 : Int) = 6) := by exact_mod_cast h6
      simp [hf, hf2, h6, h62]

theorem window_sig_eq (r : Nat) (hr : r < 4294967296) :
    Window.decodeSignature (toInt32 r) = referenceSignature r :=
  console_sig_eq r hr

/-- C1: for every 32-bit leaf-1 register-0 value `r`, the signature decoded by
both front ends equals the reference definition (fields `bits[0:4)`, `[12:14)`,
`[4:8)`, `[8:12)`, `[16:20)`, `[20:28)`; the extended family added when the base
family is `0xF`; the extended model folded in when the resulting family is `0x6`
or `0xF`). A base family `0xF` with extended family `0x3` decodes to family
`0x12`, and `0x000306A9` decodes to family 6, model 58, stepping 9, type 0. -/
theorem signature_matches_reference (r : Nat) (hr : r < 4294967296) :
    Console.decodeSignature (toInt32 r) = referenceSignature r
    ∧ Window.decodeSignature (toInt32 r) = referenceSignature r
    ∧ (bits r 8 12 = 0xF → bits r 20 28 = 0x3 →
        (Console.decodeSignature (toInt32 r)).family = 0x12
        ∧ (Window.decodeSignature (toInt32 r)).family = 0x12)
    ∧ Console.decodeSignature (toInt32 0x000306A9) = ⟨6, 58, 9, 0⟩
    ∧ Window.decodeSignature (toInt32 0x000306A9) = ⟨6, 58, 9, 0⟩ := by
  refine ⟨console_sig_eq r hr, window_sig_eq r hr, ?_, by decide, by decide⟩
  intro hf he
  rw [window_sig_eq r hr, console_sig_eq r hr]
  simp [referenceSignature, hf, he]

/-- Witness of C1 at `r = 0x00300F00` (base family `0xF`, extended family `0x3`). -/
theorem signature_matches_reference_witness :
    (0x00300F00 : Nat) < 4294967296
    ∧ (Console.decodeSignature (toInt32 0x00300F00)).family = 0x12 :=
  ⟨by decide,
   ((signature_matches_reference 0x00300F00 (by decide)).2.2.1 (by decide) (by decide)).1⟩

/-- C2 (the code at the failing input): for the leaf-1 register-0 value
`0x00870F10` the base family field is `0xF`, the base model field is 1 and the
extended model field is 7, so folding gives model `1 + (7 << 4) = 113`; both
front ends report family 23 and model 1, the extended model is not folded in. -/
theorem model_not_folded_for_extended_family :
    bits 0x00870F10 8 12 = 0xF
    ∧ bits 0x00870F10 4 8 + bits 0x00870F10 16 20 * 2 ^ 4 = 113
    ∧ Console.decodeSignature (toInt32 0x00870F10) = ⟨23, 1, 0, 0⟩
    ∧ Window.decodeSignature (toInt32 0x00870F10) = ⟨23, 1, 0, 0⟩ := by
  decide

/-! ### Bytes of a register and C strings -/

theorem toUInt32_toInt32 (w : Nat) (hw : w < 4294967296) : toUInt32 (toInt32 w) = w := by
  unfold toUInt32 toInt32
  have hm : w % 4294967296 = w := Nat.mod_eq_of_lt hw
  rw [hm]
  split <;> omega

theorem int32Bytes_toInt32 (w : Nat) (hw : w < 4294967296) :
    int32Bytes (toInt32 w) = leBytes w := by
  simp [int32Bytes, leBytes, bits, toUInt32_toInt32 w hw]

theorem cstr_append_nul (l : Bytes) : cstr (l ++ [0]) = l.takeWhile (fun b => b != 0) := by
  unfold cstr
  induction l with
  | nil => rfl
  | cons a t ih =>
    by_cases h : a = 0
    · subst h; rfl
    · simp [List.takeWhile_cons, h, ih]

theorem takeWhile_of_all (l : Bytes) (h : ∀ b ∈ l, b ≠ 0) :
    l.takeWhile (fun b => b != 0) = l := by
  rw [List.takeWhile_eq_self_iff]
  intro b hb
  simpa using h b hb

theorem console_vendor_eq (q : Capability) (hq : q.WF) :
    Console.vendor q = (vendorBytes (q 0 0)).takeWhile (fun b => b != 0) := by
  obtain ⟨_, h1, h2, h3⟩ := hq 0 0
  simp only [Console.vendor, Console.vendorBuf, cpuid, cpuidex, int32Bytes_toInt32 _ h1,
    int32Bytes_toInt32 _ h2, int32Bytes_toInt32 _ h3, vendorBytes]
  exact cstr_append_nul _

theorem window_vendor_eq (q : Capability) (hq : q.WF) :
    Window.vendor q = (vendorBytes (q 0 0)).takeWhile (fun b => b != 0) :=
  console_vendor_eq q hq

theorem window_vendorStr_eq (q : Capability) : Window.vendorStr q = Console.vendor q := rfl

/-- C3 (counterexample): with leaf-0 register 1 holding `'A', NUL, 'B', NUL` the
vendor string of both front ends is `"A"`, not the 12 bytes with the NUL bytes
removed (`"ABABCDABCD"`). -/
theorem vendor_embedded_nul_not_removed :
    Console.vendor embeddedNulVendor = lit "A"
    ∧ Window.vendor embeddedNulVendor = lit "A"
    ∧ (vendorBytes (embeddedNulVendor 0 0)).filter (fun b => b != 0) = lit "ABABCDABCD"
    ∧ Console.vendor embeddedNulVendor
        ≠ (vendorBytes (embeddedNulVendor 0 0)).filter (fun b => b != 0) := by
  decide

/-- C3 (amended): for every leaf-0 register tuple the vendor string of both front
ends is the 12 bytes of registers 1, 3, 2 (each little endian) cut at the first
NUL byte; when none of the 12 bytes is NUL it is exactly those 12 bytes. -/
theorem vendor_is_bytes_before_first_nul (q : Capability) (hq : q.WF) :
    Console.vendor q = (vendorBytes (q 0 0)).takeWhile (fun b => b != 0)
    ∧ Window.vendor q = (vendorBytes (q 0 0)).takeWhile (fun b => b != 0)
    ∧ ((∀ b ∈ vendorBytes (q 0 0), b ≠ 0) →
        Console.vendor q = vendorBytes (q 0 0) ∧ Window.vendor q = vendorBytes (q 0 0)) := by
  refine ⟨console_vendor_eq q hq, window_vendor_eq q hq, fun h => ?_⟩
  rw [window_vendor_eq q hq, console_vendor_eq q hq, takeWhile_of_all _ h]
  exact ⟨rfl, rfl⟩

/-! ### Well-formedness of the concrete capabilities -/

theorem intelMock_wf : Capability.WF intelMock := by
  intro leaf sub
  unfold intelMock
  split_ifs <;> (unfold Regs.WF; decide)

theorem notAvailableBrand_wf : Capability.WF notAvailableBrand := by
  intro leaf sub
  unfold notAvailableBrand
  split_ifs <;> (unfold Regs.WF; decide)

theorem amdMock_wf (m : Nat) : Capability.WF (amdMock m) := by
  intro leaf sub
  unfold amdMock
  split_ifs <;> unfold Regs.WF
  · decide
  · decide
  · exact ⟨Nat.mod_lt _ (by decide), by simp, by simp, by simp⟩
  · decide
  · decide

theorem intelHighMaxBasic_wf : Capability.WF intelHighMaxBasic := by
  intro leaf sub
  unfold intelHighMaxBasic
  split_ifs <;> (unfold Regs.WF; decide)

theorem centaurMock_wf : Capability.WF centaurMock := by
  intro leaf sub
  unfold centaurMock
  split_ifs <;> (unfold Regs.WF; decide)

/-- Witness of C3 at the Intel mock, whose 12 vendor bytes have no NUL. -/
theorem vendor_is_bytes_before_first_nul_witness :
    Capability.WF intelMock ∧ Console.vendor intelMock = lit "GenuineIntel" :=
  ⟨intelMock_wf,
   ((vendor_is_bytes_before_first_nul intelMock intelMock_wf).2.2 (by decide)).1⟩

/-! ### Brand string -/

theorem console_maxExt_eq (q : Capability) (hq : q.WF) :
    Console.maxExt q = maxExtendedLeaf q :=
  toUInt32_toInt32 _ (hq 0x80000000 0).1

theorem window_maxExt_eq (q : Capability) (hq : q.WF) :
    Window.maxExt q = maxExtendedLeaf q :=
  toUInt32_toInt32 _ (hq 0x80000000 0).1

theorem console_brandBuf_eq (q : Capability) (hq : q.WF) :
    Console.brandBuf q = brandBytes q ++ [0] := by
  obtain ⟨a0, a1, a2, a3⟩ := hq 0x80000002 0
  obtain ⟨b0, b1, b2, b3⟩ := hq 0x80000003 0
  obtain ⟨c0, c1, c2, c3⟩ := hq 0x80000004 0
  simp only [Console.brandBuf, cpuid, cpuidex, brandBytes, int32Bytes_toInt32, a0, a1, a2, a3,
    b0, b1, b2, b3, c0, c1, c2, c3]
  simp

theorem skipSpaces_append_nul (l : Bytes) :
    skipSpaces (l ++ [0]) = l.dropWhile (fun b => b == 32) ++ [0] := by
  unfold skipSpaces
  induction l with
  | nil => rfl
  | cons a t ih =>
    by_cases h : a = 32
    · subst h
      simpa [List.dropWhile_cons] using ih
    · simp [List.dropWhile_cons, h]

theorem console_brandText_eq (q : Capability) (hq : q.WF) :
    Console.brandText q
      = ((brandBytes q).dropWhile (fun b => b == 32)).takeWhile (fun b => b != 0) := by
  rw [Console.brandText, console_brandBuf_eq q hq, skipSpaces_append_nul, cstr_append_nul]

theorem window_brandText_eq (q : Capability) (hq : q.WF) :
    Window.brandText q
      = ((brandBytes q).dropWhile (fun b => b == 32)).takeWhile (fun b => b != 0) :=
  console_brandText_eq q hq

theorem console_brandLine_of_brand (q : Capability) :
    Console.brandLine q
      = (match Console.brand q with
         | some p => lit "CPU Brand: " ++ p ++ lit "\n"
         | none => lit "CPU Brand: <Not available>\n") := by
  unfold Console.brandLine Console.brand
  split_ifs <;> rfl

theorem window_brandLine_of_brand (q : Capability) :
    Window.brandLine q
      = (match Window.brand q with
         | some p => lit "CPU Brand: " ++ p ++ lit "\r\n"
         | none => lit "CPU Brand: <Not available>\r\n") := by
  unfold Window.brandLine Window.brand
  split_ifs <;> rfl

/-- C4: for every capability the brand is reported absent (the `else` branch,
which prints the line `CPU Brand: <Not available>`) if and only if register 0 of
leaf 0x80000000, read as an unsigned 32-bit value, is below `0x80000004`;
otherwise the brand is present and the brand line is `CPU Brand: ` followed by
the brand string built from leaves 0x80000002..0x80000004. Both front ends. -/
theorem brand_absent_iff_below_leaf4 (q : Capability) (hq : q.WF) :
    (Console.brand q = none ↔ maxExtendedLeaf q < 0x80000004)
    ∧ (Window.brand q = none ↔ maxExtendedLeaf q < 0x80000004)
    ∧ (Console.brand q = none → Console.brandLine q = lit "CPU Brand: <Not available>\n")
    ∧ (Window.brand q = none → Window.brandLine q = lit "CPU Brand: <Not available>\r\n")
    ∧ (0x80000004 ≤ maxExtendedLeaf q →
        Console.brand q
          = some (((brandBytes q).dropWhile (fun b => b == 32)).takeWhile (fun b => b != 0))
        ∧ Window.brand q
          = some (((brandBytes q).dropWhile (fun b => b == 32)).takeWhile (fun b => b != 0))
        ∧ Console.brandLine q = lit "CPU Brand: "
            ++ ((brandBytes q).dropWhile (fun b => b == 32)).takeWhile (fun b => b != 0)
            ++ lit "\n"
        ∧ Window.brandLine q = lit "CPU Brand: "
            ++ ((brandBytes q).dropWhile (fun b => b == 32)).takeWhile (fun b => b != 0)
            ++ lit "\r\n") := by
  have hcb : Console.brand q
      = if 0x80000004 ≤ maxExtendedLeaf q then
          some (((brandBytes q).dropWhile (fun b => b == 32)).takeWhile (fun b => b != 0))
        else none := by
    unfold Console.brand
    rw [console_maxExt_eq q hq, console_brandText_eq q hq]
  have hwb : Window.brand q = Console.brand q := rfl
  refine ⟨?_, ?_, fun h => ?_, fun h => ?_, fun h => ?_⟩
  · rw [hcb]
    by_cases h : 0x80000004 ≤ maxExtendedLeaf q
    · simp [h]
    · simp [h]; omega
  · rw [hwb, hcb]
    by_cases h : 0x80000004 ≤ maxExtendedLeaf q
    · simp [h]
    · simp [h]; omega
  · rw [console_brandLine_of_brand, h]
  · rw [window_brandLine_of_brand, h]
  · have hb : Console.brand q
        = some (((brandBytes q).dropWhile (fun b => b == 32)).takeWhile (fun b => b != 0)) := by
      rw [hcb, if_pos h]
    refine ⟨hb, hwb.trans hb, ?_, ?_⟩
    · rw [console_brandLine_of_brand, hb]
    · rw [window_brandLine_of_brand, hwb, hb]

/-- Witness of C4: the AMD mock with `maxExtendedLeaf = 0x80000003` reports the
brand absent; the Intel mock (`maxExtendedLeaf = 0x80000004`) reports the brand
built from its leaves. -/
theorem brand_absent_iff_below_leaf4_witness :
    Capability.WF (amdMock 0x80000003)
    ∧ Console.brand (amdMock 0x80000003) = none
    ∧ Console.brandLine (amdMock 0x80000003) = lit "CPU Brand: <Not available>\n"
    ∧ Console.brand intelMock = some (lit "Intel(R) Core(TM) i7-3770 CPU @ 3.40GHz") :=
  ⟨amdMock_wf _,
   (brand_absent_iff_below_leaf4 (amdMock 0x80000003) (amdMock_wf _)).1.2 (by decide),
   (brand_absent_iff_below_leaf4 (amdMock 0x80000003) (amdMock_wf _)).2.2.1
     ((brand_absent_iff_below_leaf4 (amdMock 0x80000003) (amdMock_wf _)).1.2 (by decide)),
   ((brand_absent_iff_below_leaf4 intelMock intelMock_wf).2.2.2.2 (by decide)).1.trans
     (by decide)⟩

/-- C5 (counterexample): for the Intel mock (`maxExtendedLeaf = 0x80000004`) the
brand string of both front ends is the 39 bytes
`Intel(R) Core(TM) i7-3770 CPU @ 3.40GHz`, while the 48 brand bytes with the
leading spaces removed are 40 bytes, ending with the NUL byte. -/
theorem brand_stops_at_nul :
    0x80000004 ≤ maxExtendedLeaf intelMock
    ∧ Console.brandText intelMock = lit "Intel(R) Core(TM) i7-3770 CPU @ 3.40GHz"
    ∧ Window.brandText intelMock = lit "Intel(R) Core(TM) i7-3770 CPU @ 3.40GHz"
    ∧ (brandBytes intelMock).dropWhile (fun b => b == 32)
        = lit "Intel(R) Core(TM) i7-3770 CPU @ 3.40GHz" ++ [0]
    ∧ Console.brandText intelMock ≠ (brandBytes intelMock).dropWhile (fun b => b == 32) := by
  decide

/-- C5 (amended): for every capability with `maxExtendedLeaf >= 0x80000004` the
brand string of both front ends is the 48 bytes of leaves 0x80000002,
0x80000003, 0x80000004 (registers 0 to 3 in order, each little endian) with the
leading spaces removed and then cut at the first NUL byte, and the brand line is
`CPU Brand: ` followed by it; when none of the 48 bytes is NUL the brand string
is exactly the 48 bytes with the leading spaces removed. -/
theorem brand_is_trimmed_bytes_before_first_nul (q : Capability) (hq : q.WF)
    (h : 0x80000004 ≤ maxExtendedLeaf q) :
    Console.brandLine q = lit "CPU Brand: "
        ++ ((brandBytes q).dropWhile (fun b => b == 32)).takeWhile (fun b => b != 0) ++ lit "\n"
    ∧ Window.brandLine q = lit "CPU Brand: "
        ++ ((brandBytes q).dropWhile (fun b => b == 32)).takeWhile (fun b => b != 0)
        ++ lit "\r\n"
    ∧ ((∀ b ∈ brandBytes q, b ≠ 0) →
        Console.brandText q = (brandBytes q).dropWhile (fun b => b == 32)
        ∧ Window.brandText q = (brandBytes q).dropWhile (fun b => b == 32)) := by
  refine ⟨?_, ?_, fun hn => ?_⟩
  · rw [Console.brandLine, console_maxExt_eq q hq, if_pos h, console_brandText_eq q hq]
  · rw [Window.brandLine, window_maxExt_eq q hq, if_pos h, window_brandText_eq q hq]
  · rw [window_brandText_eq q hq, console_brandText_eq q hq]
    have : ∀ b ∈ (brandBytes q).dropWhile (fun b => b == 32), b ≠ 0 :=
      fun b hb => hn b ((List.dropWhile_suffix _).subset hb)
    rw [takeWhile_of_all _ this]
    exact ⟨rfl, rfl⟩

/-- Witness of C5 at the Intel mock. -/
theorem brand_is_trimmed_bytes_before_first_nul_witness :
    Capability.WF intelMock ∧ 0x80000004 ≤ maxExtendedLeaf intelMock
    ∧ Console.brandLine intelMock
        = lit "CPU Brand: Intel(R) Core(TM) i7-3770 CPU @ 3.40GHz\n" :=
  ⟨intelMock_wf, by decide,
   (brand_is_trimmed_bytes_before_first_nul intelMock intelMock_wf (by decide)).1.trans
     (by decide)⟩

/-! ### Feature flags -/

theorem and_two_pow_ne_zero (w k : Nat) : w &&& 2 ^ k ≠ 0 ↔ w.testBit k = true := by
  constructor
  · intro h
    by_contra hb
    apply h
    apply Nat.eq_of_testBit_eq
    intro i
    simp only [Nat.testBit_and, Nat.testBit_two_pow, Nat.zero_testBit]
    by_cases hki : k = i
    · subst hki
      simp [hb]
    · simp [hki]
  · intro hb h
    have h1 : (w &&& 2 ^ k).testBit k = true := by
      simp [Nat.testBit_and, hb, Nat.testBit_two_pow_self]
    rw [h] at h1
    simp at h1

theorem bitSet_eq (w k : Nat) (hw : w < 4294967296) (hk : k < 32) :
    Console.bitSet (toInt32 w) k = w.testBit k := by
  unfold Console.bitSet
  have hm : 2 ^ k < 2 ^ (32 - 0) := Nat.pow_lt_pow_right (by norm_num) (by omega)
  have h := field_eq w 0 (2 ^ k) hw (by omega) hm
  rw [shiftRight_zero] at h
  rw [Int.one_shiftLeft, h]
  have h0 : w >>> 0 = w := rfl
  rw [h0]
  by_cases hb : w.testBit k = true
  · have := (and_two_pow_ne_zero w k).2 hb
    simp [hb, this]
  · have h1 : w &&& 2 ^ k = 0 := by
      by_contra hne
      exact hb ((and_two_pow_ne_zero w k).1 hne)
    simp [hb, h1]

theorem console_flags_eq (q : Capability) (hq : q.WF) :
    (Console.featureFlags q).map Prod.snd
      = flagTable (q 1 0).r2 (q 1 0).r3 (q 0x80000001 0).r2 (q 0x80000001 0).r3 := by
  obtain ⟨_, _, h2, h3⟩ := hq 1 0
  obtain ⟨_, _, e2, e3⟩ := hq 0x80000001 0
  simp [Console.featureFlags, Console.stdFlags, Console.extFlags, flagTable, cpuid, cpuidex,
    bitSet_eq, h2, h3, e2, e3]

theorem window_flags_eq (q : Capability) (hq : q.WF) :
    (Window.featureFlags q).map Prod.snd
      = flagTable (q 1 0).r2 (q 1 0).r3 (q 0x80000001 0).r2 (q 0x80000001 0).r3 :=
  console_flags_eq q hq

/-- C6: for every capability (32-bit registers), the 14 booleans emitted by both
front ends are, in order, the table bits: SSE = stdEDX.25, SSE2 = stdEDX.26,
SSE3 = stdECX.0, SSSE3 = stdECX.9, SSE4.1 = stdECX.19, SSE4.2 = stdECX.20,
AVX = stdECX.28, FMA3 = stdECX.12, PCLMUL = stdECX.1, AES = stdECX.25,
LM = extEDX.29, RDTSCP = extECX.27, SSE4a = extECX.6, MMXExt = extEDX.22, each a
function of its own bit only; and a flag line reads `Yes` exactly when its
boolean is true. -/
theorem feature_flags_match_table (q : Capability) (hq : q.WF) :
    (Console.featureFlags q).map Prod.snd
      = flagTable (q 1 0).r2 (q 1 0).r3 (q 0x80000001 0).r2 (q 0x80000001 0).r3
    ∧ (Window.featureFlags q).map Prod.snd
      = flagTable (q 1 0).r2 (q 1 0).r3 (q 0x80000001 0).r2 (q 0x80000001 0).r3
    ∧ (∀ name b, Console.PrintFeatureFlag name b
          = lit "  " ++ padRight8 (lit name) ++ lit ": " ++ lit "Yes" ++ lit "\n" ↔ b = true)
    ∧ (∀ name b, Window.PrintFeat name b
          = lit "    " ++ lit name ++ lit ": " ++ lit "Yes" ++ lit "\r\n" ↔ b = true) := by
  refine ⟨console_flags_eq q hq, window_flags_eq q hq, ?_, ?_⟩
  · intro name b
    cases b
    · simp only [Console.PrintFeatureFlag, List.append_left_inj, List.append_right_inj]
      decide
    · simp [Console.PrintFeatureFlag]
  · intro name b
    cases b
    · simp only [Window.PrintFeat, List.append_left_inj, List.append_right_inj]
      decide
    · simp [Window.PrintFeat]

/-- Witness of C6 at the Intel mock: of the extended flags only LM (extEDX.29)
is set; of the standard flags only FMA3 (stdECX.12) is clear. -/
theorem feature_flags_match_table_witness :
    Capability.WF intelMock
    ∧ (Console.featureFlags intelMock).map Prod.snd
        = [true, true, true, true, true, true, true, false, true, true,
           true, false, false, false] :=
  ⟨intelMock_wf, (feature_flags_match_table intelMock intelMock_wf).1.trans (by decide)⟩

/-- C7 (counterexample): the names emitted by both front ends differ from the
names of the specification table: the last two are `SSE4a(AMD)` and
`MMXExt(AMD)`, written without a space. -/
theorem flag_names_differ_from_table :
    (Console.featureFlags notAvailableBrand).map Prod.fst ≠ specFlagNames
    ∧ (Window.featureFlags notAvailableBrand).map Prod.fst ≠ specFlagNames
    ∧ (Console.featureFlags notAvailableBrand).map Prod.fst = codeFlagNames := by
  decide

/-- C7 (amended): for every capability both front ends emit exactly 14 flags
whose names, in output order, are `SSE`, `SSE2`, `SSE3`, `SSSE3`, `SSE4.1`,
`SSE4.2`, `AVX`, `FMA3`, `PCLMUL`, `AES`, `x86-64 (LM)`, `RDTSCP`, `SSE4a(AMD)`,
`MMXExt(AMD)`, independent of the register values. -/
theorem flag_names_fixed (q : Capability) :
    (Console.featureFlags q).map Prod.fst = codeFlagNames
    ∧ (Window.featureFlags q).map Prod.fst = codeFlagNames
    ∧ (Console.featureFlags q).length = 14
    ∧ (Window.featureFlags q).length = 14 :=
  ⟨rfl, rfl, rfl, rfl⟩

/-! ### Physical core count -/

theorem strstr_isSome_iff (hay needle : Bytes) :
    (strstr hay needle).isSome = true ↔ needle <:+: hay := by
  induction hay with
  | nil =>
    unfold strstr
    by_cases h : needle.isPrefixOf [] = true
    · have h2 : needle <+: [] := List.isPrefixOf_iff_prefix.1 h
      simp [h, h2.isInfix]
    · have h2 : ¬ needle <:+: [] := by
        intro hi
        apply h
        rw [List.isPrefixOf_iff_prefix]
        rw [List.infix_nil] at hi
        rw [hi]
      simp [h, h2]
  | cons a t ih =>
    unfold strstr
    rw [List.infix_cons_iff]
    by_cases h : needle.isPrefixOf (a :: t) = true
    · have h2 : needle <+: a :: t := List.isPrefixOf_iff_prefix.1 h
      simp [h, h2]
    · have h2 : ¬ needle <+: a :: t := fun hp => h (List.isPrefixOf_iff_prefix.2 hp)
      simp [h, h2, ih]

theorem toInt32_ge_four (w : Nat) (hw : w < 4294967296) :
    toInt32 w ≥ 4 ↔ 4 ≤ w ∧ w < 2147483648 := by
  by_cases h : w < 2147483648
  · rw [toInt32_of_lt h]; omega
  · rw [toInt32_of_ge (by omega) hw, Int.negSucc_eq]; omega

/-- The value of `physicalCores` in the console front end, branch by branch. -/
theorem console_physicalCores_eq (q : Capability) (hq : q.WF) (n : Nat) :
    Console.physicalCores q n =
      if lit "Intel" <:+: Console.vendor q ∧ 4 ≤ maxBasicLeaf q ∧ maxBasicLeaf q < 2147483648
      then ((bits (q 4 0).r0 26 32 : Nat) : Int) + 1
      else if lit "AuthenticAMD" <:+: Console.vendor q ∧ 0x80000008 ≤ maxExtendedLeaf q
      then ((bits (q 0x80000008 0).r2 0 8 : Nat) : Int) + 1
      else toInt32 n := by
  have hcore : Int.land (Int.shiftRight (toInt32 (q 4 0).r0) 26) 0x3F
      = ((bits (q 4 0).r0 26 32 : Nat) : Int) := field_bits _ 26 6 (hq 4 0).1 (by norm_num)
  have hamd : Int.land (toInt32 (q 0x80000008 0).r2) 0xFF
      = ((bits (q 0x80000008 0).r2 0 8 : Nat) : Int) :=
    mask_bits _ 8 (hq 0x80000008 0).2.2.1 (by norm_num)
  have hext : toUInt32 (toInt32 (q 0x80000000 0).r0) = maxExtendedLeaf q :=
    toUInt32_toInt32 _ (hq 0x80000000 0).1
  have hbas : toInt32 (q 0 0).r0 ≥ 4 ↔ 4 ≤ maxBasicLeaf q ∧ maxBasicLeaf q < 2147483648 :=
    toInt32_ge_four _ (hq 0 0).1
  simp only [Console.physicalCores, cpuid, cpuidex, hcore, hamd, hext, hbas,
    strstr_isSome_iff, ge_iff_le]

theorem window_physicalCores_eq (q : Capability) (n : Nat) :
    Window.physicalCores q n = Console.physicalCores q n := rfl

/-- C8: for every capability whose vendor string contains neither `Intel` nor
`AuthenticAMD` as a substring, and every logical processor count `n` that the
platform reports (a count below `2^31`), the physical core count reported by both
front ends equals `n` exactly, whatever leaves 4 and 0x80000008 return. -/
theorem unknown_vendor_physical_eq_logical (q : Capability) (n : Nat) (hn : n < 2147483648)
    (hI : ¬ lit "Intel" <:+: Console.vendor q)
    (hA : ¬ lit "AuthenticAMD" <:+: Console.vendor q) :
    Console.physicalCores q n = (n : Int) ∧ Window.physicalCores q n = (n : Int) := by
  have h : Console.physicalCores q n = toInt32 n := by
    simp [Console.physicalCores, strstr_isSome_iff, hI, hA]
  rw [window_physicalCores_eq, h, toInt32_of_lt hn]
  exact ⟨rfl, rfl⟩

/-- Witness of C8 at the `CentaurHauls` mock (leaves 4 and 0x80000008 are not
zero) with 4 logical processors. -/
theorem unknown_vendor_physical_eq_logical_witness :
    (4 : Nat) < 2147483648
    ∧ ¬ lit "Intel" <:+: Console.vendor centaurMock
    ∧ ¬ lit "AuthenticAMD" <:+: Console.vendor centaurMock
    ∧ Console.physicalCores centaurMock 4 = 4 :=
  ⟨by decide, by decide, by decide,
   (unknown_vendor_physical_eq_logical centaurMock 4 (by decide) (by decide) (by decide)).1⟩

/-- C9 (counterexample): for the mock with vendor `GenuineIntel` whose leaf-0
register 0 is `0x80000000` (at least 4 as an unsigned value) and whose leaf-4
field `bits[26:32)` is 7, both front ends report the logical processor count 4,
not `7 + 1`. -/
theorem intel_branch_skipped_for_high_maxBasic :
    lit "Intel" <:+: Console.vendor intelHighMaxBasic
    ∧ 4 ≤ maxBasicLeaf intelHighMaxBasic
    ∧ bits (intelHighMaxBasic 4 0).r0 26 32 + 1 = 8
    ∧ Console.physicalCores intelHighMaxBasic 4 = 4
    ∧ Window.physicalCores intelHighMaxBasic 4 = 4 := by
  decide

/-- C9 (amended): for every capability whose vendor string contains `Intel` and
whose `maxBasicLeaf` (register 0 of leaf 0), read as a signed 32-bit `int`, is at
least 4 (the unsigned value is in `[4, 2^31)`), the physical core count reported
by both front ends is `bits[26:32)` of register 0 of leaf 4 sub-leaf 0, plus 1,
independent of the logical processor count. -/
theorem intel_physical_from_leaf4 (q : Capability) (hq : q.WF) (n : Nat)
    (hI : lit "Intel" <:+: Console.vendor q)
    (h4 : 4 ≤ maxBasicLeaf q) (hs : maxBasicLeaf q < 2147483648) :
    Console.physicalCores q n = ((bits (q 4 0).r0 26 32 : Nat) : Int) + 1
    ∧ Window.physicalCores q n = ((bits (q 4 0).r0 26 32 : Nat) : Int) + 1 := by
  rw [window_physicalCores_eq, console_physicalCores_eq q hq n, if_pos ⟨hI, h4, hs⟩]
  exact ⟨rfl, rfl⟩

/-- Witness of C9 at the Intel mock (`maxBasicLeaf = 0xD`, leaf-4 field 7). -/
theorem intel_physical_from_leaf4_witness :
    Capability.WF intelMock
    ∧ lit "Intel" <:+: Console.vendor intelMock
    ∧ 4 ≤ maxBasicLeaf intelMock ∧ maxBasicLeaf intelMock < 2147483648
    ∧ Console.physicalCores intelMock 2 = 8 :=
  ⟨intelMock_wf, by decide, by decide, by decide,
   (intel_physical_from_leaf4 intelMock intelMock_wf 2 (by decide) (by decide)
      (by decide)).1.trans (by decide)⟩

/-- C10: for every capability for which the Intel condition fails (the vendor
string lacks `Intel` or `maxBasicLeaf < 4`) and whose vendor string contains
`AuthenticAMD`, and every logical processor count `n` that the platform reports
(a count below `2^31`): if `maxExtendedLeaf >= 0x80000008` the physical core
count reported by both front ends is `bits[0:8)` of register 2 of leaf
0x80000008, plus 1; if `maxExtendedLeaf < 0x80000008` it equals `n`. -/
theorem amd_physical_from_leaf8 (q : Capability) (hq : q.WF) (n : Nat) (hn : n < 2147483648)
    (hfail : ¬ lit "Intel" <:+: Console.vendor q ∨ maxBasicLeaf q < 4)
    (hA : lit "AuthenticAMD" <:+: Console.vendor q) :
    (0x80000008 ≤ maxExtendedLeaf q →
        Console.physicalCores q n = ((bits (q 0x80000008 0).r2 0 8 : Nat) : Int) + 1
        ∧ Window.physicalCores q n = ((bits (q 0x80000008 0).r2 0 8 : Nat) : Int) + 1)
    ∧ (maxExtendedLeaf q < 0x80000008 →
        Console.physicalCores q n = (n : Int) ∧ Window.physicalCores q n = (n : Int)) := by
  have hno : ¬ (lit "Intel" <:+: Console.vendor q ∧ 4 ≤ maxBasicLeaf q
      ∧ maxBasicLeaf q < 2147483648) := by
    rintro ⟨h1, h2, _⟩
    rcases hfail with h | h
    · exact h h1
    · omega
  rw [window_physicalCores_eq, console_physicalCores_eq q hq n, if_neg hno]
  refine ⟨fun h8 => ?_, fun h8 => ?_⟩
  · rw [if_pos ⟨hA, h8⟩]
    exact ⟨rfl, rfl⟩
  · rw [if_neg (fun h => by omega), toInt32_of_lt hn]
    exact ⟨rfl, rfl⟩

/-- Witness of C10 at the AMD mock, with `maxExtendedLeaf = 0x8000001E` (leaf
0x80000008 read, field `0x0B`) and with `maxExtendedLeaf = 0x80000004`. -/
theorem amd_physical_from_leaf8_witness :
    Capability.WF (amdMock 0x8000001E)
    ∧ lit "AuthenticAMD" <:+: Console.vendor (amdMock 0x8000001E)
    ∧ Console.physicalCores (amdMock 0x8000001E) 24 = 12
    ∧ Console.physicalCores (amdMock 0x80000004) 24 = 24 :=
  ⟨amdMock_wf _, by decide,
   ((amd_physical_from_leaf8 (amdMock 0x8000001E) (amdMock_wf _) 24 (by decide)
      (Or.inl (by decide)) (by decide)).1 (by decide)).1.trans (by decide),
   ((amd_physical_from_leaf8 (amdMock 0x80000004) (amdMock_wf _) 24 (by decide)
      (Or.inl (by decide)) (by decide)).2 (by decide)).1⟩

/-! ### Cache enumeration -/

theorem toUInt32_natCast (n : Nat) (h : n < 4294967296) : toUInt32 (n : Int) = n := by
  unfold toUInt32
  omega

theorem bits_lt (w lo hi : Nat) : bits w lo hi < 2 ^ (hi - lo) :=
  Nat.mod_lt _ (Nat.pos_pow_of_pos _ (by norm_num))

theorem cpuidex_eq (q : Capability) (leaf sub : Nat) :
    cpuidex q leaf sub = cpuInfoOf (q leaf sub) := rfl

theorem console_cacheType_eq (r : Regs) (hr : r.WF) :
    Console.cacheType (cpuInfoOf r) = bits r.r0 0 5 := by
  have h := mask_bits r.r0 5 hr.1 (by norm_num)
  have hb : bits r.r0 0 5 < 2 ^ (5 - 0) := bits_lt _ _ _
  have h32 : bits r.r0 0 5 < 4294967296 := by norm_num at hb; omega
  unfold Console.cacheType cpuInfoOf
  norm_num at h
  rw [h, toUInt32_natCast _ h32]

/-- The least index below `n` satisfying `p`, else `n`: its three properties. -/
theorem find_range_spec (p : Nat → Bool) (n : Nat) :
    ((List.range n).find? p).getD n ≤ n
    ∧ (∀ i, i < ((List.range n).find? p).getD n → p i = false)
    ∧ (((List.range n).find? p).getD n < n → p (((List.range n).find? p).getD n) = true) := by
  induction n with
  | zero => simp
  | succ n ih =>
    rw [List.range_succ, List.find?_append]
    cases hf : (List.range n).find? p with
    | some b =>
      rw [hf] at ih
      have hb : b < n := List.mem_range.1 (List.mem_of_find?_eq_some hf)
      have hp : p b = true := List.find?_some hf
      simp only [Option.or_some, Option.getD_some] at ih ⊢
      exact ⟨by omega, ih.2.1, fun _ => hp⟩
    | none =>
      rw [hf] at ih
      simp only [Option.getD_none, Option.none_or] at ih ⊢
      by_cases hpn : p n = true
      · simp only [List.find?_cons, hpn, Option.getD_some]
        exact ⟨by omega, ih.2.1, fun _ => by simp [hpn]⟩
      · have hpn2 : p n = false := by simpa using hpn
        simp only [List.find?_cons, hpn2, List.find?_nil, Option.getD_none]
        refine ⟨le_refl _, fun i hi => ?_, fun h => absurd h (lt_irrefl _)⟩
        by_cases hin : i < n
        · exact ih.2.1 i hin
        · have : i = n := by omega
          rw [this]; exact hpn2

theorem firstZeroType_spec (q : Capability) (leaf : Nat) :
    firstZeroType q leaf ≤ 32
    ∧ (∀ i, i < firstZeroType q leaf → typeCode q leaf i ≠ 0)
    ∧ (firstZeroType q leaf < 32 → typeCode q leaf (firstZeroType q leaf) = 0) := by
  obtain ⟨h1, h2, h3⟩ := find_range_spec (fun i => typeCode q leaf i == 0) 32
  refine ⟨h1, fun i hi => ?_, fun h => ?_⟩
  · have := h2 i hi
    simpa using this
  · have := h3 h
    simpa using this

/-- The loop entered at `s`, when the first zero type code from `s` on is at
`s + d` (or there is none below 32 and `s + d = 32`). -/
theorem console_cacheLoop_from (q : Capability) (hq : q.WF) (leaf k : Nat) (hk : k ≤ 32)
    (hnz : ∀ i, i < k → typeCode q leaf i ≠ 0) (hz : k < 32 → typeCode q leaf k = 0) :
    ∀ d s, s + d = k →
      Console.cacheLoop q leaf s
        = (List.range' s (min (k + 1) 32 - s),
           (List.range' s d).map (fun i => Console.cacheEntry (cpuidex q leaf i))) := by
  intro d
  induction d with
  | zero =>
    intro s hs
    have hsk : s = k := by omega
    subst hsk
    rw [Console.cacheLoop]
    by_cases h32 : s < 32
    · have ht : Console.cacheType (cpuidex q leaf s) = 0 := by
        rw [cpuidex_eq, console_cacheType_eq _ (hq leaf s)]
        exact hz h32
      have hm : min (s + 1) 32 - s = 1 := by omega
      simp [h32, ht, hm]
    · have hm : min (s + 1) 32 - s = 0 := by omega
      simp [h32, hm]
  | succ d ih =>
    intro s hs
    have hsk : s < k := by omega
    have h32 : s < 32 := by omega
    have ht : ¬ Console.cacheType (cpuidex q leaf s) = 0 := by
      rw [cpuidex_eq, console_cacheType_eq _ (hq leaf s)]
      exact hnz s hsk
    have hm : min (k + 1) 32 - s = (min (k + 1) 32 - (s + 1)) + 1 := by omega
    rw [Console.cacheLoop, ih (s + 1) (by omega), hm]
    simp [h32, ht, List.range'_succ]

theorem console_cacheLoop_eq (q : Capability) (hq : q.WF) (leaf : Nat) :
    Console.cacheLoop q leaf 0
      = (List.range (min (firstZeroType q leaf + 1) 32),
         (List.range (firstZeroType q leaf)).map
            (fun i => Console.cacheEntry (cpuidex q leaf i))) := by
  obtain ⟨h1, h2, h3⟩ := firstZeroType_spec q leaf
  rw [console_cacheLoop_from q hq leaf _ h1 h2 h3 (firstZeroType q leaf) 0 (by omega)]
  simp [List.range_eq_range']

theorem window_cacheType_eq (x : CpuInfoArr) : Window.cacheType x = Console.cacheType x := rfl

theorem window_cacheEntry_eq (x : CpuInfoArr) : Window.cacheEntry x = Console.cacheEntry x := rfl

theorem window_cacheLoop_eq (q : Capability) (leaf : Nat) :
    ∀ d s, s + d = 32 → Window.cacheLoop q leaf s = Console.cacheLoop q leaf s := by
  intro d
  induction d with
  | zero =>
    intro s hs
    rw [Window.cacheLoop, Console.cacheLoop]
    simp [show ¬ s < 32 by omega]
  | succ d ih =>
    intro s hs
    rw [Window.cacheLoop, Console.cacheLoop, ih (s + 1) (by omega)]
    rfl

theorem window_cacheLoop_zero (q : Capability) (leaf : Nat) :
    Window.cacheLoop q leaf 0 = Console.cacheLoop q leaf 0 :=
  window_cacheLoop_eq q leaf 32 0 (by omega)

theorem window_leafCache_eq (q : Capability) : Window.leafCache q = Console.leafCache q := rfl

theorem toUInt32_succ (n : Nat) (h : n + 1 < 4294967296) : toUInt32 ((n : Int) + 1) = n + 1 := by
  unfold toUInt32
  omega

theorem toUInt32_sets (w : Nat) (hw : w < 4294967296) :
    toUInt32 (toInt32 w + 1) = (w + 1) % 4294967296 := by
  by_cases h : w < 2147483648
  · rw [toInt32_of_lt h]
    unfold toUInt32
    omega
  · rw [toInt32_of_ge (by omega) hw, Int.negSucc_eq]
    unfold toUInt32
    omega

/-- The loop body on a register tuple, field by field. -/
theorem console_cacheEntry_eq (r : Regs) (hr : r.WF) :
    Console.cacheEntry (cpuInfoOf r)
      = ⟨bits r.r0 5 8, specTypeName (bits r.r0 0 5), sizeKB32 r.r1 r.r2,
         bits r.r1 22 32 + 1, bits r.r1 0 12 + 1⟩ := by
  obtain ⟨h0, h1, h2, _⟩ := hr
  have hlev := field_bits r.r0 5 3 h0 (by norm_num)
  have hway := field_bits r.r1 22 10 h1 (by norm_num)
  have hpar := field_bits r.r1 12 10 h1 (by norm_num)
  have hlin := mask_bits r.r1 12 h1 (by norm_num)
  have b1 : bits r.r0 5 8 < 2 ^ (8 - 5) := bits_lt _ _ _
  have b2 : bits r.r1 22 32 < 2 ^ (32 - 22) := bits_lt _ _ _
  have b3 : bits r.r1 12 22 < 2 ^ (22 - 12) := bits_lt _ _ _
  have b4 : bits r.r1 0 12 < 2 ^ (12 - 0) := bits_lt _ _ _
  norm_num at hlev hway hpar hlin b1 b2 b3 b4
  have ht := console_cacheType_eq r ⟨h0, h1, h2, by assumption⟩
  simp only [cpuInfoOf] at ht
  simp only [Console.cacheEntry, cpuInfoOf, ht, hlev, hway, hpar, hlin, specTypeName, sizeKB32,
    toUInt32_natCast _ (show bits r.r0 5 8 < 4294967296 by omega),
    toUInt32_succ _ (show bits r.r1 22 32 + 1 < 4294967296 by omega),
    toUInt32_succ _ (show bits r.r1 12 22 + 1 < 4294967296 by omega),
    toUInt32_succ _ (show bits r.r1 0 12 + 1 < 4294967296 by omega),
    toUInt32_sets _ h2, Nat.mod_mul_mod]

theorem window_cacheEntry_fields (r : Regs) (hr : r.WF) :
    Window.cacheEntry (cpuInfoOf r)
      = ⟨bits r.r0 5 8, specTypeName (bits r.r0 0 5), sizeKB32 r.r1 r.r2,
         bits r.r1 22 32 + 1, bits r.r1 0 12 + 1⟩ :=
  console_cacheEntry_eq r hr

theorem endlessCacheMock_wf : Capability.WF endlessCacheMock := by
  intro leaf sub
  unfold endlessCacheMock
  split_ifs <;> (unfold Regs.WF; decide)

theorem extCacheMock_wf : Capability.WF extCacheMock := by
  intro leaf sub
  unfold extCacheMock
  split_ifs <;> (unfold Regs.WF; decide)

/-- C11: for every capability and cache leaf, with `k` the least sub-leaf index
below 32 whose type code (`bits[0:5)` of register 0) is 0, or 32 when there is
none, the descriptors emitted by the loop of both front ends are the decoded
entries of sub-leaves `0, ..., k-1` in ascending order, and the sub-leaves
queried are `0, ..., min k 31`: at most 32, none after the first sub-leaf of
type code 0. The loop is a total function. The descriptors of the report are
those of the chosen leaf, and none when no leaf is chosen. -/
theorem cache_scan_stops_at_first_zero (q : Capability) (hq : q.WF) (leaf : Nat) :
    (Console.cacheLoop q leaf 0).2
      = (List.range (firstZeroType q leaf)).map (fun i => Console.cacheEntry (cpuidex q leaf i))
    ∧ (Window.cacheLoop q leaf 0).2
      = (List.range (firstZeroType q leaf)).map (fun i => Window.cacheEntry (cpuidex q leaf i))
    ∧ (Console.cacheLoop q leaf 0).1 = List.range (min (firstZeroType q leaf + 1) 32)
    ∧ (Window.cacheLoop q leaf 0).1 = List.range (min (firstZeroType q leaf + 1) 32)
    ∧ firstZeroType q leaf ≤ 32
    ∧ (Console.cacheLoop q leaf 0).1.length ≤ 32
    ∧ (Window.cacheLoop q leaf 0).1.length ≤ 32
    ∧ Console.cacheDescriptors q
        = (if Console.leafCache q = 0 then []
           else (List.range (firstZeroType q (Console.leafCache q))).map
             (fun i => Console.cacheEntry (cpuidex q (Console.leafCache q) i)))
    ∧ Window.cacheDescriptors q
        = (if Window.leafCache q = 0 then []
           else (List.range (firstZeroType q (Window.leafCache q))).map
             (fun i => Window.cacheEntry (cpuidex q (Window.leafCache q) i))) := by
  have hc := console_cacheLoop_eq q hq
  have hw : ∀ l, Window.cacheLoop q l 0
      = (List.range (min (firstZeroType q l + 1) 32),
         (List.range (firstZeroType q l)).map (fun i => Window.cacheEntry (cpuidex q l i))) := by
    intro l
    rw [window_cacheLoop_zero, hc l]
    rfl
  refine ⟨by rw [hc], by rw [hw], by rw [hc], by rw [hw], (firstZeroType_spec q leaf).1,
    ?_, ?_, ?_, ?_⟩
  · rw [hc, List.length_range]; omega
  · rw [hw, List.length_range]; omega
  · unfold Console.cacheDescriptors
    rw [hc]
  · unfold Window.cacheDescriptors
    rw [hw]

/-- Witness of C11: the Intel mock has four cache sub-leaves and type code 0 at
sub-leaf 4 (five queries); the endless mock never reports type code 0 (exactly
32 queries and 32 descriptors). -/
theorem cache_scan_stops_at_first_zero_witness :
    Capability.WF intelMock
    ∧ (Console.cacheLoop intelMock 4 0).2
        = [⟨1, "Data", 32, 8, 64⟩, ⟨1, "Instruction", 32, 8, 64⟩, ⟨2, "Unified", 256, 8, 64⟩,
           ⟨3, "Unified", 8192, 16, 64⟩]
    ∧ (Console.cacheLoop intelMock 4 0).1 = [0, 1, 2, 3, 4]
    ∧ (Console.cacheLoop endlessCacheMock 4 0).1 = List.range 32
    ∧ (Console.cacheLoop endlessCacheMock 4 0).2.length = 32 :=
  ⟨intelMock_wf,
   (cache_scan_stops_at_first_zero intelMock intelMock_wf 4).1.trans (by decide),
   (cache_scan_stops_at_first_zero intelMock intelMock_wf 4).2.2.1.trans (by decide),
   (cache_scan_stops_at_first_zero endlessCacheMock endlessCacheMock_wf 4).2.2.1.trans
     (by decide),
   (congrArg List.length
     (cache_scan_stops_at_first_zero endlessCacheMock endlessCacheMock_wf 4).1).trans
     (by decide)⟩

/-! ### Cache size -/

theorem sizeKB32_eq_exact (r1 r2 : Nat) (h : exactProduct r1 r2 < 4294967296) :
    sizeKB32 r1 r2 = exactProduct r1 r2 / 1024 := by
  unfold exactProduct at h
  have hpos : 0 < (bits r1 22 32 + 1) * (bits r1 12 22 + 1) * (bits r1 0 12 + 1) :=
    Nat.mul_pos (Nat.mul_pos (Nat.succ_pos _) (Nat.succ_pos _)) (Nat.succ_pos _)
  have hle : r2 + 1 ≤ (bits r1 22 32 + 1) * (bits r1 12 22 + 1) * (bits r1 0 12 + 1) * (r2 + 1) :=
    Nat.le_mul_of_pos_left _ hpos
  have hs : (r2 + 1) % 4294967296 = r2 + 1 := Nat.mod_eq_of_lt (by omega)
  unfold sizeKB32 exactProduct
  rw [hs, Nat.mod_eq_of_lt h]

/-- C12 (counterexample): for a sub-leaf of 16 ways, 1 partition, 64-byte lines
and `2 ^ 22` sets the exact product is `2 ^ 32`, so the exact size is 4194304 KB;
both front ends report 0 KB. -/
theorem size_wraps_at_four_gib :
    exactProduct hugeCacheRegs.r1 hugeCacheRegs.r2 / 1024 = 4194304
    ∧ (Console.cacheEntry (cpuInfoOf hugeCacheRegs)).sizeKB = 0
    ∧ (Window.cacheEntry (cpuInfoOf hugeCacheRegs)).sizeKB = 0 := by
  decide

theorem sizeKB32_eq_mod (r1 r2 : Nat) :
    sizeKB32 r1 r2 = exactProduct r1 r2 % 4294967296 / 1024 := by
  unfold sizeKB32 exactProduct
  rw [Nat.mul_mod_mod]

theorem sizeKB32_exact_iff (r1 r2 : Nat) :
    sizeKB32 r1 r2 = exactProduct r1 r2 / 1024 ↔ exactProduct r1 r2 < 4294967296 := by
  rw [sizeKB32_eq_mod]
  omega

/-- C12 (amended): for every sub-leaf, with ways = `bits[22:32)` of register 1
plus 1, partitions = `bits[12:22)` plus 1, lineSize = `bits[0:12)` plus 1 and
sets = register 2 plus 1, the size reported by both front ends is the exact
product `ways * partitions * lineSize * sets` reduced modulo `2 ^ 32` and then
divided by 1024, rounded down; it equals the exact product divided by 1024 if
and only if the exact product is below `2 ^ 32`. -/
theorem size_exact_below_wrap (r : Regs) (hr : r.WF) :
    (Console.cacheEntry (cpuInfoOf r)).sizeKB = exactProduct r.r1 r.r2 % 4294967296 / 1024
    ∧ (Window.cacheEntry (cpuInfoOf r)).sizeKB = exactProduct r.r1 r.r2 % 4294967296 / 1024
    ∧ ((Console.cacheEntry (cpuInfoOf r)).sizeKB = exactProduct r.r1 r.r2 / 1024
        ↔ exactProduct r.r1 r.r2 < 4294967296)
    ∧ ((Window.cacheEntry (cpuInfoOf r)).sizeKB = exactProduct r.r1 r.r2 / 1024
        ↔ exactProduct r.r1 r.r2 < 4294967296) := by
  rw [window_cacheEntry_fields r hr, console_cacheEntry_eq r hr]
  exact ⟨sizeKB32_eq_mod _ _, sizeKB32_eq_mod _ _, sizeKB32_exact_iff _ _,
    sizeKB32_exact_iff _ _⟩

/-- Witness of C12 at the level-3 sub-leaf of the Intel mock (exact product
below `2 ^ 32`, 8192 KB) and at the 4 GiB sub-leaf (exact product `2 ^ 32`,
reported size different from the exact 4194304 KB). -/
theorem size_exact_below_wrap_witness :
    Regs.WF (intelMock 4 3)
    ∧ (Console.cacheEntry (cpuInfoOf (intelMock 4 3))).sizeKB = 8192
    ∧ (Console.cacheEntry (cpuInfoOf hugeCacheRegs)).sizeKB
        ≠ exactProduct hugeCacheRegs.r1 hugeCacheRegs.r2 / 1024 :=
  ⟨intelMock_wf 4 3,
   (size_exact_below_wrap (intelMock 4 3) (intelMock_wf 4 3)).1.trans (by decide),
   fun h => absurd ((size_exact_below_wrap hugeCacheRegs
      (by unfold Regs.WF; decide)).2.2.1.1 h) (by decide)⟩

/-- C20: for every sub-leaf the size reported by both front ends is the 32-bit
value `((ways * partitions * lineSize * ((register2 + 1) mod 2^32)) mod 2^32)
div 1024`; it is below `2 ^ 22`, it is 0 when register 2 is `0xFFFFFFFF`, and it
equals the exact product divided by 1024 whenever the exact product is below
`2 ^ 32`. -/
theorem size_is_wrapped_product (r : Regs) (hr : r.WF) :
    (Console.cacheEntry (cpuInfoOf r)).sizeKB = sizeKB32 r.r1 r.r2
    ∧ (Window.cacheEntry (cpuInfoOf r)).sizeKB = sizeKB32 r.r1 r.r2
    ∧ (Console.cacheEntry (cpuInfoOf r)).sizeKB < 2 ^ 22
    ∧ (r.r2 = 0xFFFFFFFF → (Console.cacheEntry (cpuInfoOf r)).sizeKB = 0)
    ∧ (exactProduct r.r1 r.r2 < 2 ^ 32 →
        (Console.cacheEntry (cpuInfoOf r)).sizeKB = exactProduct r.r1 r.r2 / 1024) := by
  rw [window_cacheEntry_fields r hr, console_cacheEntry_eq r hr]
  refine ⟨rfl, rfl, ?_, fun h2 => ?_, fun h => ?_⟩
  · show sizeKB32 r.r1 r.r2 < 2 ^ 22
    unfold sizeKB32
    omega
  · show sizeKB32 r.r1 r.r2 = 0
    unfold sizeKB32
    rw [h2]
    norm_num
  · exact sizeKB32_eq_exact _ _ (by norm_num at h; exact h)

/-- Witness of C20 at the 4 GiB sub-leaf (reported size 0 KB) and with register 2
equal to `0xFFFFFFFF`. -/
theorem size_is_wrapped_product_witness :
    Regs.WF hugeCacheRegs
    ∧ (Console.cacheEntry (cpuInfoOf hugeCacheRegs)).sizeKB = sizeKB32 0x03C0003F 0x003FFFFF
    ∧ (Console.cacheEntry (cpuInfoOf ⟨0x121, 0x01C0003F, 0xFFFFFFFF, 0⟩)).sizeKB = 0 :=
  ⟨by unfold Regs.WF; decide,
   (size_is_wrapped_product hugeCacheRegs (by unfold Regs.WF; decide)).1,
   (size_is_wrapped_product ⟨0x121, 0x01C0003F, 0xFFFFFFFF, 0⟩
      (by unfold Regs.WF; decide)).2.2.2.1 rfl⟩

/-! ### Cache descriptor fields -/

theorem specTypeName_unknown (t : Nat) (h : 4 ≤ t) : specTypeName t = "Unknown" := by
  unfold specTypeName
  rw [if_neg (by omega), if_neg (by omega), if_neg (by omega)]

/-- C14: for every sub-leaf `i` queried by the loop whose type code
`t = bits[0:5)` of register 0 is not 0, the descriptor emitted at position `i` by
both front ends has level `bits[5:8)` of register 0, ways `bits[22:32)` of
register 1 plus 1, line size `bits[0:12)` of register 1 plus 1, and the type
name `Data` for `t = 1`, `Instruction` for `t = 2`, `Unified` for `t = 3` and
`Unknown` for every `t` in `4..31`. -/
theorem cache_descriptor_fields (q : Capability) (hq : q.WF) (leaf i : Nat)
    (hi : i ∈ (Console.cacheLoop q leaf 0).1) (ht : typeCode q leaf i ≠ 0) :
    ∃ d, (Console.cacheLoop q leaf 0).2[i]? = some d
      ∧ (Window.cacheLoop q leaf 0).2[i]? = some d
      ∧ d.level = bits (q leaf i).r0 5 8
      ∧ d.ways = bits (q leaf i).r1 22 32 + 1
      ∧ d.lineSize = bits (q leaf i).r1 0 12 + 1
      ∧ (typeCode q leaf i = 1 → d.typeName = "Data")
      ∧ (typeCode q leaf i = 2 → d.typeName = "Instruction")
      ∧ (typeCode q leaf i = 3 → d.typeName = "Unified")
      ∧ (4 ≤ typeCode q leaf i → typeCode q leaf i ≤ 31 ∧ d.typeName = "Unknown") := by
  obtain ⟨_, _, hz⟩ := firstZeroType_spec q leaf
  have hloop := console_cacheLoop_eq q hq leaf
  rw [hloop, List.mem_range] at hi
  have hik : i < firstZeroType q leaf := by
    by_contra hge
    have hek : i = firstZeroType q leaf := by omega
    exact ht (hek ▸ hz (by omega))
  have hb : typeCode q leaf i < 2 ^ (5 - 0) := bits_lt _ _ _
  refine ⟨Console.cacheEntry (cpuidex q leaf i), ?_, ?_, ?_⟩
  · rw [hloop]
    simp [List.getElem?_range hik]
  · rw [window_cacheLoop_zero, hloop]
    simp [List.getElem?_range hik]
  · rw [cpuidex_eq, console_cacheEntry_eq _ (hq leaf i)]
    refine ⟨rfl, rfl, rfl, fun h => ?_, fun h => ?_, fun h => ?_, fun h => ⟨?_, ?_⟩⟩
    · show specTypeName (typeCode q leaf i) = "Data"
      rw [h]; rfl
    · show specTypeName (typeCode q leaf i) = "Instruction"
      rw [h]; rfl
    · show specTypeName (typeCode q leaf i) = "Unified"
      rw [h]; rfl
    · norm_num at hb; omega
    · exact specTypeName_unknown _ h

/-- Witness of C14 at sub-leaf 3 of leaf 4 of the Intel mock (type code 3). -/
theorem cache_descriptor_fields_witness :
    Capability.WF intelMock
    ∧ 3 ∈ (Console.cacheLoop intelMock 4 0).1
    ∧ typeCode intelMock 4 3 ≠ 0
    ∧ ∃ d, (Console.cacheLoop intelMock 4 0).2[3]? = some d
        ∧ d.level = 3 ∧ d.ways = 16 ∧ d.lineSize = 64 ∧ d.typeName = "Unified" := by
  have h3 : 3 ∈ (Console.cacheLoop intelMock 4 0).1 := by
    rw [console_cacheLoop_eq intelMock intelMock_wf 4]
    decide
  obtain ⟨d, h1, _, h4, h5, h6, _, _, h9, _⟩ :=
    cache_descriptor_fields intelMock intelMock_wf 4 3 h3 (by decide)
  exact ⟨intelMock_wf, h3, by decide, d, h1, h4.trans (by decide), h5.trans (by decide),
    h6.trans (by decide), h9 (by decide)⟩

/-! ### Choice of the cache leaf -/

/-- The value of `leafCache` in the console front end, branch by branch. -/
theorem console_leafCache_eq (q : Capability) (hq : q.WF) :
    Console.leafCache q =
      if 4 ≤ maxBasicLeaf q ∧ maxBasicLeaf q < 2147483648 then 4
      else if 0x8000001D ≤ maxExtendedLeaf q then 0x8000001D
      else 0 := by
  have hext : toUInt32 (toInt32 (q 0x80000000 0).r0) = maxExtendedLeaf q :=
    toUInt32_toInt32 _ (hq 0x80000000 0).1
  have hbas : toInt32 (q 0 0).r0 ≥ 4 ↔ 4 ≤ maxBasicLeaf q ∧ maxBasicLeaf q < 2147483648 :=
    toInt32_ge_four _ (hq 0 0).1
  simp only [Console.leafCache, cpuid, cpuidex, hext, hbas, ge_iff_le]

/-- C13 (counterexample): for the mock whose leaf-0 register 0 is `0x80000000`
(at least 4 as an unsigned value) and whose `maxExtendedLeaf` is 0, both front
ends choose no leaf, query no cache sub-leaf and emit the
`No advanced cache enumeration.` marker. -/
theorem cache_leaf_not_chosen_for_high_maxBasic :
    4 ≤ maxBasicLeaf intelHighMaxBasic
    ∧ Console.leafCache intelHighMaxBasic = 0
    ∧ Window.leafCache intelHighMaxBasic = 0
    ∧ Console.cacheQueries intelHighMaxBasic = []
    ∧ Console.ShowCacheInfo intelHighMaxBasic
        = lit "\nCache Information:\n  No advanced cache enumeration.\n" := by
  decide

/-- C13 (amended): for every capability the cache leaf chosen by both front ends
is leaf 4 if `maxBasicLeaf` (register 0 of leaf 0), read as a signed 32-bit
`int`, is at least 4 (the unsigned value is in `[4, 2^31)`); otherwise leaf
`0x8000001D` if `maxExtendedLeaf` (unsigned) is at least `0x8000001D`; otherwise
no leaf is chosen, no cache sub-leaf is queried, no descriptor is emitted and the
`No advanced cache enumeration.` marker is emitted instead. -/
theorem cache_leaf_choice (q : Capability) (hq : q.WF) :
    (4 ≤ maxBasicLeaf q ∧ maxBasicLeaf q < 2147483648 →
        Console.leafCache q = 4 ∧ Window.leafCache q = 4)
    ∧ (¬ (4 ≤ maxBasicLeaf q ∧ maxBasicLeaf q < 2147483648) →
        0x8000001D ≤ maxExtendedLeaf q →
        Console.leafCache q = 0x8000001D ∧ Window.leafCache q = 0x8000001D)
    ∧ (¬ (4 ≤ maxBasicLeaf q ∧ maxBasicLeaf q < 2147483648) →
        maxExtendedLeaf q < 0x8000001D →
        Console.leafCache q = 0 ∧ Window.leafCache q = 0
        ∧ Console.cacheQueries q = [] ∧ Window.cacheQueries q = []
        ∧ Console.cacheDescriptors q = [] ∧ Window.cacheDescriptors q = []
        ∧ Console.ShowCacheInfo q
            = lit "\nCache Information:\n  No advanced cache enumeration.\n"
        ∧ Window.cacheText q
            = lit "\r\nCache Information:\r\n"
                ++ lit "    No advanced cache enumeration.\r\n") := by
  have hc := console_leafCache_eq q hq
  have hw : Window.leafCache q = Console.leafCache q := rfl
  refine ⟨fun h => ?_, fun h he => ?_, fun h he => ?_⟩
  · rw [hw, hc, if_pos h]
    exact ⟨rfl, rfl⟩
  · rw [hw, hc, if_neg h, if_pos he]
    exact ⟨rfl, rfl⟩
  · have h0 : Console.leafCache q = 0 := by
      rw [hc, if_neg h, if_neg (by omega)]
    have hw0 : Window.leafCache q = 0 := hw.trans h0
    simp [Console.cacheQueries, Window.cacheQueries, Console.cacheDescriptors,
      Window.cacheDescriptors, Console.ShowCacheInfo, Window.cacheText, h0, hw0]

/-- Witness of C13: the Intel mock (`maxBasicLeaf = 0xD`) chooses leaf 4, the
mock with `maxBasicLeaf = 1` and `maxExtendedLeaf = 0x8000001E` chooses leaf
`0x8000001D`, the mock with `maxBasicLeaf = 0` and `maxExtendedLeaf = 0x80000004`
chooses no leaf and emits no descriptor. -/
theorem cache_leaf_choice_witness :
    Capability.WF intelMock
    ∧ Console.leafCache intelMock = 4
    ∧ Console.leafCache extCacheMock = 0x8000001D
    ∧ Console.cacheDescriptors notAvailableBrand = [] :=
  ⟨intelMock_wf,
   ((cache_leaf_choice intelMock intelMock_wf).1 (by decide)).1,
   ((cache_leaf_choice extCacheMock extCacheMock_wf).2.1 (by decide) (by decide)).1,
   ((cache_leaf_choice notAvailableBrand notAvailableBrand_wf).2.2 (by decide)
      (by decide)).2.2.2.2.1⟩

/-! ### The basic section of the report -/

theorem splitLines_ne_nil (t : Bytes) : splitLines t ≠ [] := by
  cases t with
  | nil => simp [splitLines]
  | cons b t =>
    unfold splitLines
    split_ifs
    · simp
    · split <;> simp

theorem splitLines_append (pre rest : Bytes) :
    splitLines (pre ++ 10 :: rest) = splitLines pre ++ splitLines rest := by
  induction pre with
  | nil => simp [splitLines]
  | cons b t ih =>
    by_cases hb : b = 10
    · subst hb
      simp [splitLines, ih]
    · obtain ⟨l, ls, hl⟩ := List.exists_cons_of_ne_nil (splitLines_ne_nil t)
      simp [splitLines, hb, ih, hl]

/-- A run of bytes without LF that stands between two LF bytes is a line. -/
theorem mem_splitLines (pre l post : Bytes) (hl : splitLines l = [l]) :
    l ∈ splitLines (pre ++ 10 :: (l ++ 10 :: post)) := by
  rw [splitLines_append, splitLines_append, hl]
  simp

/-- C15: for every capability whose leaf 0 yields the vendor `GenuineIntel`
(EBX = `Genu`, EDX = `ineI`, ECX = `ntel`), whose leaf-1 register 0 is
`0x000306A9` and whose leaf-0x80000000 register 0 is `0x80000004`, the console
report is the banner followed by the line `CPU Vendor: GenuineIntel`, the line
`Family: 6, Model: 58, Stepping: 9, Type: 0` and the brand output; both lines
are lines of the report; the brand is present (the not-available branch is not
taken), and the brand output is `CPU Brand: ` followed by the brand string built
from leaves 0x80000002..0x80000004. -/
theorem intel_mock_basic_report (q : Capability) (hq : q.WF)
    (hb : (q 0 0).r1 = 0x756E6547) (hd : (q 0 0).r3 = 0x49656E69)
    (hc : (q 0 0).r2 = 0x6C65746E) (h1 : (q 1 0).r0 = 0x000306A9)
    (he : (q 0x80000000 0).r0 = 0x80000004) (n : Nat) (freq2f : Bytes) :
    Console.main q n freq2f
      = lit "===== CPU Information Utility =====\n\n"
        ++ (lit "CPU Vendor: GenuineIntel\n"
            ++ lit "Family: 6, Model: 58, Stepping: 9, Type: 0\n"
            ++ (lit "CPU Brand: "
                ++ ((brandBytes q).dropWhile (fun b => b == 32)).takeWhile (fun b => b != 0)
                ++ lit "\n"))
        ++ Console.ShowFeatureFlags q
        ++ Console.ShowCoreAndThreadCount q n
        ++ Console.ShowCacheInfo q
        ++ (lit "\nApprox. CPU Frequency: " ++ freq2f ++ lit " MHz\n")
        ++ lit "\n===================================\n"
    ∧ lit "CPU Vendor: GenuineIntel" ∈ splitLines (Console.main q n freq2f)
    ∧ lit "Family: 6, Model: 58, Stepping: 9, Type: 0" ∈ splitLines (Console.main q n freq2f)
    ∧ Console.brand q
        = some (((brandBytes q).dropWhile (fun b => b == 32)).takeWhile (fun b => b != 0))
    ∧ Console.brandLine q
        = lit "CPU Brand: "
          ++ ((brandBytes q).dropWhile (fun b => b == 32)).takeWhile (fun b => b != 0)
          ++ lit "\n" := by
  have hv : Console.vendor q = lit "GenuineIntel" := by
    rw [console_vendor_eq q hq]
    unfold vendorBytes
    rw [hb, hd, hc]
    decide
  have hs : Console.signature q = ⟨6, 58, 9, 0⟩ := by
    unfold Console.signature cpuid cpuidex
    simp only [h1]
    decide
  have hm : Console.maxExt q ≥ 0x80000004 := by
    rw [console_maxExt_eq q hq]
    unfold maxExtendedLeaf
    rw [he]
  have hbrand : Console.brand q
      = some (((brandBytes q).dropWhile (fun b => b == 32)).takeWhile (fun b => b != 0)) := by
    unfold Console.brand
    rw [if_pos hm, console_brandText_eq q hq]
  have hline : Console.brandLine q
      = lit "CPU Brand: "
        ++ ((brandBytes q).dropWhile (fun b => b == 32)).takeWhile (fun b => b != 0)
        ++ lit "\n" := by
    rw [console_brandLine_of_brand, hbrand]
  have hbasic : Console.ShowBasicCPUInfo q
      = lit "CPU Vendor: GenuineIntel\n"
        ++ lit "Family: 6, Model: 58, Stepping: 9, Type: 0\n"
        ++ (lit "CPU Brand: "
            ++ ((brandBytes q).dropWhile (fun b => b == 32)).takeWhile (fun b => b != 0)
            ++ lit "\n") := by
    unfold Console.ShowBasicCPUInfo
    simp only [hv, hs, hline]
    have e1 : lit "CPU Vendor: " ++ lit "GenuineIntel" ++ lit "\n"
        = lit "CPU Vendor: GenuineIntel\n" := by decide
    have e2 : lit "Family: " ++ fmtInt 6 ++ lit ", Model: " ++ fmtInt 58
        ++ lit ", Stepping: " ++ fmtInt 9 ++ lit ", Type: " ++ fmtInt 0 ++ lit "\n"
        = lit "Family: 6, Model: 58, Stepping: 9, Type: 0\n" := by decide
    rw [e1, e2]
  have hmain : Console.main q n freq2f
      = lit "===== CPU Information Utility =====\n\n"
        ++ (lit "CPU Vendor: GenuineIntel\n"
            ++ lit "Family: 6, Model: 58, Stepping: 9, Type: 0\n"
            ++ (lit "CPU Brand: "
                ++ ((brandBytes q).dropWhile (fun b => b == 32)).takeWhile (fun b => b != 0)
                ++ lit "\n"))
        ++ Console.ShowFeatureFlags q
        ++ Console.ShowCoreAndThreadCount q n
        ++ Console.ShowCacheInfo q
        ++ (lit "\nApprox. CPU Frequency: " ++ freq2f ++ lit " MHz\n")
        ++ lit "\n===================================\n" := by
    unfold Console.main
    rw [hbasic]
  have eB : lit "===== CPU Information Utility =====\n\n"
      = lit "===== CPU Information Utility =====\n" ++ [10] := by decide
  have eV : lit "CPU Vendor: GenuineIntel\n" = lit "CPU Vendor: GenuineIntel" ++ [10] := by
    decide
  have eF : lit "Family: 6, Model: 58, Stepping: 9, Type: 0\n"
      = lit "Family: 6, Model: 58, Stepping: 9, Type: 0" ++ [10] := by decide
  refine ⟨hmain, ?_, ?_, hbrand, hline⟩
  · have hshape : Console.main q n freq2f
        = lit "===== CPU Information Utility =====\n"
          ++ 10 :: (lit "CPU Vendor: GenuineIntel"
          ++ 10 :: (lit "Family: 6, Model: 58, Stepping: 9, Type: 0\n"
            ++ (lit "CPU Brand: "
                ++ ((brandBytes q).dropWhile (fun b => b == 32)).takeWhile (fun b => b != 0)
                ++ lit "\n")
            ++ Console.ShowFeatureFlags q
            ++ Console.ShowCoreAndThreadCount q n
            ++ Console.ShowCacheInfo q
            ++ (lit "\nApprox. CPU Frequency: " ++ freq2f ++ lit " MHz\n")
            ++ lit "\n===================================\n")) := by
      rw [hmain, eB, eV]
      simp only [List.append_assoc, List.singleton_append, List.cons_append, List.nil_append]
    rw [hshape]
    exact mem_splitLines _ _ _ (by decide)
  · have hshape : Console.main q n freq2f
        = (lit "===== CPU Information Utility =====\n\n" ++ lit "CPU Vendor: GenuineIntel")
          ++ 10 :: (lit "Family: 6, Model: 58, Stepping: 9, Type: 0"
          ++ 10 :: ((lit "CPU Brand: "
                ++ ((brandBytes q).dropWhile (fun b => b == 32)).takeWhile (fun b => b != 0)
                ++ lit "\n")
            ++ Console.ShowFeatureFlags q
            ++ Console.ShowCoreAndThreadCount q n
            ++ Console.ShowCacheInfo q
            ++ (lit "\nApprox. CPU Frequency: " ++ freq2f ++ lit " MHz\n")
            ++ lit "\n===================================\n")) := by
      rw [hmain, eV, eF]
      simp only [List.append_assoc, List.singleton_append, List.cons_append, List.nil_append]
    rw [hshape]
    exact mem_splitLines _ _ _ (by decide)

/-- Witness of C15 at the Intel mock (brand string
`Intel(R) Core(TM) i7-3770 CPU @ 3.40GHz`). -/
theorem intel_mock_basic_report_witness :
    Capability.WF intelMock
    ∧ lit "CPU Vendor: GenuineIntel" ∈ splitLines (Console.main intelMock 8 (lit "3000.00"))
    ∧ Console.brand intelMock = some (lit "Intel(R) Core(TM) i7-3770 CPU @ 3.40GHz")
    ∧ Console.brandLine intelMock
        = lit "CPU Brand: Intel(R) Core(TM) i7-3770 CPU @ 3.40GHz\n" :=
  ⟨intelMock_wf,
   (intel_mock_basic_report intelMock intelMock_wf rfl rfl rfl rfl rfl 8 (lit "3000.00")).2.1,
   (intel_mock_basic_report intelMock intelMock_wf rfl rfl rfl rfl rfl 8
      (lit "3000.00")).2.2.2.1.trans (by decide),
   (intel_mock_basic_report intelMock intelMock_wf rfl rfl rfl rfl rfl 8
      (lit "3000.00")).2.2.2.2.trans (by decide)⟩

/-! ### The two reports -/

/-- C17 (counterexample): for the Intel mock with 8 logical processors and the
frequency texts `3000.00` (console) and `3000` (window), the window text is not
the console report with each LF replaced by CR LF: the console report begins
with the banner `===== CPU Information Utility =====`, the window text with
`CPU Vendor: `. -/
theorem window_text_differs_from_console_report :
    (crlf (Console.main intelMock 8 (lit "3000.00"))).take 11 = lit "===== CPU I"
    ∧ (Window.GetCPUInformation intelMock 8 (lit "3000")).take 11 = lit "CPU Vendor:"
    ∧ Window.GetCPUInformation intelMock 8 (lit "3000")
        ≠ crlf (Console.main intelMock 8 (lit "3000.00")) := by
  refine ⟨by decide, by decide, fun h => ?_⟩
  have h1 : (Window.GetCPUInformation intelMock 8 (lit "3000")).head? = some 67 := rfl
  have h2 : (crlf (Console.main intelMock 8 (lit "3000.00"))).head? = some 61 := rfl
  rw [h, h2] at h1
  cases h1

/-- The vendor, signature and brand section and the core count section of the
two front ends are the same lines, ended by LF in the console report and by
CR LF in the window text. -/
theorem basic_and_core_sections_eq (q : Capability) (n : Nat) :
    Console.ShowBasicCPUInfo q = joinLines (lit "\n") (basicLines q)
    ∧ Window.basicText q = joinLines (lit "\r\n") (basicLines q)
    ∧ Console.ShowCoreAndThreadCount q n = joinLines (lit "\n") (coreLines q n)
    ∧ Window.coreText q n = joinLines (lit "\r\n") (coreLines q n) := by
  refine ⟨?_, ?_, ?_, ?_⟩
  · unfold Console.ShowBasicCPUInfo Console.brandLine joinLines basicLines
    by_cases h : Console.maxExt q ≥ 0x80000004
    · simp [h, List.append_assoc]
    · have e : lit "CPU Brand: <Not available>\n"
          = lit "CPU Brand: <Not available>" ++ lit "\n" := by decide
      simp [h, e, List.append_assoc]
  · unfold Window.basicText Window.brandLine joinLines basicLines
    have hm : Window.maxExt q = Console.maxExt q := rfl
    have hv : Window.vendor q = Console.vendor q := rfl
    have hs : Window.signature q = Console.signature q := rfl
    have ht : Window.brandText q = Console.brandText q := rfl
    rw [hm, hv, hs, ht]
    by_cases h : Console.maxExt q ≥ 0x80000004
    · simp [h, List.append_assoc]
    · have e : lit "CPU Brand: <Not available>\r\n"
          = lit "CPU Brand: <Not available>" ++ lit "\r\n" := by decide
      simp [h, e, List.append_assoc]
  · unfold Console.ShowCoreAndThreadCount joinLines coreLines
    have e : lit "\nLogical Processors: " = lit "\n" ++ lit "Logical Processors: " := by
      decide
    simp [e, List.append_assoc]
  · unfold Window.coreText joinLines coreLines
    rw [window_physicalCores_eq]
    have e : lit "\r\nLogical Processors: " = lit "\r\n" ++ lit "Logical Processors: " := by
      decide
    simp [e, List.append_assoc]

theorem take_ne_of_ne {a b : Bytes} (k : Nat) (h : a.take k ≠ b.take k) : a ≠ b :=
  fun hab => h (by rw [hab])

theorem feature_sections_differ (q : Capability) :
    Window.featureText q ≠ crlf (Console.ShowFeatureFlags q) := by
  apply take_ne_of_ne 19
  have h1 : (Window.featureText q).take 19 = lit "\r\nStandard Features" := rfl
  have h2 : (crlf (Console.ShowFeatureFlags q)).take 19 = lit "\r\nStandard Feature " := rfl
  rw [h1, h2]
  decide

theorem cache_sections_differ (q : Capability) :
    Window.cacheText q ≠ crlf (Console.ShowCacheInfo q) := by
  have hl : Window.leafCache q = Console.leafCache q := rfl
  by_cases h : Console.leafCache q = 0
  · have h1 : Window.cacheText q
        = lit "\r\nCache Information:\r\n" ++ lit "    No advanced cache enumeration.\r\n" := by
      unfold Window.cacheText
      rw [hl, if_pos h]
    have h2 : Console.ShowCacheInfo q
        = lit "\nCache Information:\n  No advanced cache enumeration.\n" := by
      unfold Console.ShowCacheInfo
      rw [if_pos h]
    rw [h1, h2]
    decide
  · apply take_ne_of_ne 20
    have h1 : (Window.cacheText q).take 20 = lit "\r\nCache Information:" := rfl
    have h2 : (crlf (Console.ShowCacheInfo q)).take 20 = lit "\r\nCache Information " := by
      unfold Console.ShowCacheInfo
      rw [if_neg h]
      rfl
    rw [h1, h2]
    decide

/-- C17 (amended): for every capability, logical processor count and frequency
texts, the console report (`main`) is the banner, the basic lines, the feature
flag output, the core count lines, the cache output, the frequency line and the
closing rule; the window text (`GetCPUInformation`) is the basic lines, the
feature text, the core count lines, the cache text and the frequency line. The
basic lines (vendor, signature, brand) and the core count lines are the same in
both, ended by LF in the console report and by CR LF in the window text. The
window text is never the console report with LF replaced by CR LF, and neither
its feature section nor its cache section is the console section with LF
replaced by CR LF. -/
theorem window_text_vs_console_report (q : Capability) (n : Nat) (freq2f freqText : Bytes) :
    Console.main q n freq2f
      = lit "===== CPU Information Utility =====\n\n"
        ++ joinLines (lit "\n") (basicLines q)
        ++ Console.ShowFeatureFlags q
        ++ joinLines (lit "\n") (coreLines q n)
        ++ Console.ShowCacheInfo q
        ++ (lit "\nApprox. CPU Frequency: " ++ freq2f ++ lit " MHz\n")
        ++ lit "\n===================================\n"
    ∧ Window.GetCPUInformation q n freqText
      = joinLines (lit "\r\n") (basicLines q)
        ++ Window.featureText q
        ++ joinLines (lit "\r\n") (coreLines q n)
        ++ Window.cacheText q
        ++ (lit "\r\nApprox. CPU Frequency: " ++ freqText ++ lit " MHz\r\n")
    ∧ Window.GetCPUInformation q n freqText ≠ crlf (Console.main q n freq2f)
    ∧ Window.featureText q ≠ crlf (Console.ShowFeatureFlags q)
    ∧ Window.cacheText q ≠ crlf (Console.ShowCacheInfo q) := by
  obtain ⟨hb, hwb, hc, hwc⟩ := basic_and_core_sections_eq q n
  refine ⟨?_, ?_, ?_, feature_sections_differ q, cache_sections_differ q⟩
  · unfold Console.main
    rw [hb, hc]
  · unfold Window.GetCPUInformation
    rw [hwb, hwc]
  · intro h
    have h1 : (Window.GetCPUInformation q n freqText).head? = some 67 := rfl
    have h2 : (crlf (Console.main q n freq2f)).head? = some 61 := rfl
    rw [h, h2] at h1
    cases h1

theorem console_vendor_length (q : Capability) : (Console.vendor q).length ≤ 12 := by
  unfold Console.vendor Console.vendorBuf
  rw [cstr_append_nul]
  exact (List.takeWhile_sublist _).length_le.trans (by simp [int32Bytes])

theorem amd_infix_iff (q : Capability) :
    lit "AuthenticAMD" <:+: Console.vendor q ↔ Console.vendor q = lit "AuthenticAMD" := by
  constructor
  · intro h
    have hl : (Console.vendor q).length ≤ (lit "AuthenticAMD").length :=
      (console_vendor_length q).trans (by decide)
    exact (h.eq_of_length_le hl).symm
  · intro h
    rw [h]

theorem not_intel_and_amd (q : Capability) :
    ¬ (lit "Intel" <:+: Console.vendor q ∧ lit "AuthenticAMD" <:+: Console.vendor q) := by
  rintro ⟨hi, ha⟩
  rw [(amd_infix_iff q).1 ha] at hi
  exact absurd hi (by decide)

/-- C19: for every leaf-0 register tuple the vendor string has at most 12
characters; it contains `AuthenticAMD` if and only if it is exactly
`AuthenticAMD`, and it never contains both `Intel` and `AuthenticAMD`. Hence the
physical core count of both front ends equals the count computed with the two
vendor tests in the opposite order. -/
theorem vendor_branches_exclusive (q : Capability) (n : Nat) :
    (Console.vendor q).length ≤ 12
    ∧ (lit "AuthenticAMD" <:+: Console.vendor q ↔ Console.vendor q = lit "AuthenticAMD")
    ∧ (lit "AuthenticAMD" <:+: Window.vendorStr q ↔ Window.vendorStr q = lit "AuthenticAMD")
    ∧ ¬ (lit "Intel" <:+: Console.vendor q ∧ lit "AuthenticAMD" <:+: Console.vendor q)
    ∧ Console.physicalCores q n = physicalCoresAmdFirst q n
    ∧ Window.physicalCores q n = physicalCoresAmdFirst q n := by
  have hx := not_intel_and_amd q
  have hp : Console.physicalCores q n = physicalCoresAmdFirst q n := by
    unfold Console.physicalCores physicalCoresAmdFirst
    simp only [strstr_isSome_iff]
    by_cases hi : lit "Intel" <:+: Console.vendor q
    · have ha : ¬ lit "AuthenticAMD" <:+: Console.vendor q := fun ha => hx ⟨hi, ha⟩
      simp [hi, ha]
    · simp [hi]
  exact ⟨console_vendor_length q, amd_infix_iff q, amd_infix_iff q, hx, hp,
    (window_physicalCores_eq q n).trans hp⟩

/-! ### Ranges of the decoded fields -/

theorem cacheEntry_bounds (r : Regs) (hr : r.WF) :
    (Console.cacheEntry (cpuInfoOf r)).level ≤ 7
    ∧ 1 ≤ (Console.cacheEntry (cpuInfoOf r)).ways
    ∧ (Console.cacheEntry (cpuInfoOf r)).ways ≤ 1024
    ∧ 1 ≤ (Console.cacheEntry (cpuInfoOf r)).lineSize
    ∧ (Console.cacheEntry (cpuInfoOf r)).lineSize ≤ 4096 := by
  have b1 : bits r.r0 5 8 < 2 ^ (8 - 5) := bits_lt _ _ _
  have b2 : bits r.r1 22 32 < 2 ^ (32 - 22) := bits_lt _ _ _
  have b3 : bits r.r1 0 12 < 2 ^ (12 - 0) := bits_lt _ _ _
  norm_num at b1 b2 b3
  rw [console_cacheEntry_eq r hr]
  refine ⟨?_, ?_, ?_, ?_, ?_⟩
  · show bits r.r0 5 8 ≤ 7
    omega
  · show 1 ≤ bits r.r1 22 32 + 1
    omega
  · show bits r.r1 22 32 + 1 ≤ 1024
    omega
  · show 1 ≤ bits r.r1 0 12 + 1
    omega
  · show bits r.r1 0 12 + 1 ≤ 4096
    omega

theorem console_loop_bounds (q : Capability) (hq : q.WF) (leaf : Nat) :
    ∀ d ∈ (Console.cacheLoop q leaf 0).2,
      d.level ≤ 7 ∧ 1 ≤ d.ways ∧ d.ways ≤ 1024 ∧ 1 ≤ d.lineSize ∧ d.lineSize ≤ 4096 := by
  intro d hd
  rw [console_cacheLoop_eq q hq leaf] at hd
  obtain ⟨i, _, rfl⟩ := List.mem_map.1 hd
  rw [cpuidex_eq]
  exact cacheEntry_bounds _ (hq leaf i)

theorem referenceSignature_bounds (r : Nat) :
    0 ≤ (referenceSignature r).stepping ∧ (referenceSignature r).stepping ≤ 15
    ∧ 0 ≤ (referenceSignature r).type ∧ (referenceSignature r).type ≤ 3
    ∧ 0 ≤ (referenceSignature r).model ∧ (referenceSignature r).model ≤ 255
    ∧ 0 ≤ (referenceSignature r).family ∧ (referenceSignature r).family ≤ 270 := by
  have b1 : bits r 0 4 < 2 ^ (4 - 0) := bits_lt _ _ _
  have b2 : bits r 12 14 < 2 ^ (14 - 12) := bits_lt _ _ _
  have b3 : bits r 4 8 < 2 ^ (8 - 4) := bits_lt _ _ _
  have b4 : bits r 8 12 < 2 ^ (12 - 8) := bits_lt _ _ _
  have b5 : bits r 16 20 < 2 ^ (20 - 16) := bits_lt _ _ _
  have b6 : bits r 20 28 < 2 ^ (28 - 20) := bits_lt _ _ _
  norm_num at b1 b2 b3 b4 b5 b6
  simp only [referenceSignature]
  refine ⟨by positivity, by exact_mod_cast (show bits r 0 4 ≤ 15 by omega),
    by positivity, by exact_mod_cast (show bits r 12 14 ≤ 3 by omega),
    by positivity, ?_, by positivity, ?_⟩
  · norm_cast
    split_ifs <;> omega
  · norm_cast
    split_ifs <;> omega

/-- C21: for every capability and cache leaf, every sub-leaf whose descriptor is
emitted has a type code between 1 and 31, and every emitted descriptor of both
front ends has a level in `0..7` (an `unsigned`, so at least 0), ways in
`1..1024` and a line size in `1..4096`: the arithmetic right shifts of the signed
registers followed by the masks leak no sign bit. The decoded signature of both
front ends has stepping in `0..15`, type in `0..3`, model in `0..255` and family
in `0..270`. -/
theorem decoded_fields_in_range (q : Capability) (hq : q.WF) (leaf : Nat) :
    (∀ i, i < (Console.cacheLoop q leaf 0).2.length →
        1 ≤ Console.cacheType (cpuidex q leaf i) ∧ Console.cacheType (cpuidex q leaf i) ≤ 31
        ∧ 1 ≤ Window.cacheType (cpuidex q leaf i) ∧ Window.cacheType (cpuidex q leaf i) ≤ 31)
    ∧ (∀ d ∈ (Console.cacheLoop q leaf 0).2,
        d.level ≤ 7 ∧ 1 ≤ d.ways ∧ d.ways ≤ 1024 ∧ 1 ≤ d.lineSize ∧ d.lineSize ≤ 4096)
    ∧ (∀ d ∈ (Window.cacheLoop q leaf 0).2,
        d.level ≤ 7 ∧ 1 ≤ d.ways ∧ d.ways ≤ 1024 ∧ 1 ≤ d.lineSize ∧ d.lineSize ≤ 4096)
    ∧ (∀ d ∈ Console.cacheDescriptors q,
        d.level ≤ 7 ∧ 1 ≤ d.ways ∧ d.ways ≤ 1024 ∧ 1 ≤ d.lineSize ∧ d.lineSize ≤ 4096)
    ∧ (∀ d ∈ Window.cacheDescriptors q,
        d.level ≤ 7 ∧ 1 ≤ d.ways ∧ d.ways ≤ 1024 ∧ 1 ≤ d.lineSize ∧ d.lineSize ≤ 4096)
    ∧ (0 ≤ (Console.signature q).stepping ∧ (Console.signature q).stepping ≤ 15
        ∧ 0 ≤ (Console.signature q).type ∧ (Console.signature q).type ≤ 3
        ∧ 0 ≤ (Console.signature q).model ∧ (Console.signature q).model ≤ 255
        ∧ 0 ≤ (Console.signature q).family ∧ (Console.signature q).family ≤ 270)
    ∧ (0 ≤ (Window.signature q).stepping ∧ (Window.signature q).stepping ≤ 15
        ∧ 0 ≤ (Window.signature q).type ∧ (Window.signature q).type ≤ 3
        ∧ 0 ≤ (Window.signature q).model ∧ (Window.signature q).model ≤ 255
        ∧ 0 ≤ (Window.signature q).family ∧ (Window.signature q).family ≤ 270) := by
  have hsig : Console.signature q = referenceSignature (q 1 0).r0 :=
    console_sig_eq _ (hq 1 0).1
  have hwsig : Window.signature q = referenceSignature (q 1 0).r0 :=
    window_sig_eq _ (hq 1 0).1
  refine ⟨fun i hi => ?_, console_loop_bounds q hq leaf, ?_, ?_, ?_, ?_, ?_⟩
  · rw [console_cacheLoop_eq q hq leaf] at hi
    simp only [List.length_map, List.length_range] at hi
    have hnz := (firstZeroType_spec q leaf).2.1 i hi
    have hb : typeCode q leaf i < 2 ^ (5 - 0) := bits_lt _ _ _
    norm_num at hb
    rw [window_cacheType_eq, cpuidex_eq, console_cacheType_eq _ (hq leaf i)]
    have ht : bits (q leaf i).r0 0 5 = typeCode q leaf i := rfl
    rw [ht]
    omega
  · rw [window_cacheLoop_zero]
    exact console_loop_bounds q hq leaf
  · intro d hd
    unfold Console.cacheDescriptors at hd
    split_ifs at hd
    · cases hd
    · exact console_loop_bounds q hq _ d hd
  · intro d hd
    unfold Window.cacheDescriptors at hd
    rw [window_leafCache_eq, window_cacheLoop_zero] at hd
    split_ifs at hd
    · cases hd
    · exact console_loop_bounds q hq _ d hd
  · rw [hsig]
    exact referenceSignature_bounds _
  · rw [hwsig]
    exact referenceSignature_bounds _

/-- Witness of C21 at the Intel mock: the four descriptors of leaf 4 and the
signature of `0x000306A9` are in range. -/
theorem decoded_fields_in_range_witness :
    Capability.WF intelMock
    ∧ (Console.cacheLoop intelMock 4 0).2.length = 4
    ∧ (∀ d ∈ (Console.cacheLoop intelMock 4 0).2,
        d.level ≤ 7 ∧ 1 ≤ d.ways ∧ d.ways ≤ 1024 ∧ 1 ≤ d.lineSize ∧ d.lineSize ≤ 4096)
    ∧ (Console.signature intelMock).family ≤ 270 :=
  ⟨intelMock_wf,
   by rw [console_cacheLoop_eq intelMock intelMock_wf 4]; decide,
   (decoded_fields_in_range intelMock intelMock_wf 4).2.1,
   (decoded_fields_in_range intelMock intelMock_wf 4).2.2.2.2.2.1.2.2.2.2.2.2.2⟩

end CpuInfo
